import Mathlib

/-!
# OS_sim scheduler (student.c): shallow embedding

The scheduler of `student.c` keeps three pieces of global state: the intrusive
singly linked ready queue (`head` plus the `next` field of every PCB), the
`current[]` table and the policy (`scheduling`, `timeslice`).  The embedding
keeps them as they are in the C file:

* a PCB pointer is a natural number, `NULL` is `none`;
* the PCB heap is a map from pointers to `pcb_t` records, so the ready queue is
  really a chain of `next` fields and may be cyclic or shared;
* `current[]` is a map from CPU index to an optional PCB pointer;
* calls into the simulator (`context_switch`, `force_preempt`) are recorded, in
  order, in `trace`;
* mutexes and the condition variable are not part of the state; what they
  make atomic is a critical section (`Region`): the wait loop of `idle`, the
  first locked block of `preempt`, `yield` and `terminate`, the unlocked write
  of `wake_up`, `list_add`, and `schedule`.  `idle` and `preempt` hold no lock
  between their critical sections, so they take the critical sections that
  other threads run in between as arguments; `exec` and `Reachable` run a
  handler with nothing in between.  A thread that would block in
  `pthread_cond_wait` yields `Fault.blocked`.
* the `while` loop of `list_add` is bounded by a fuel argument;
* `main` takes the library conversions `strtoul` and `atoi` and the outcome of
  `malloc` as parameters and records what it reads and calls;
* the lock discipline is stated over the sequence of lock operations that each
  handler performs in program order.
-/

namespace OSSim

/-- Process states of a PCB (the enumeration of the simulator header). -/
inductive process_state_t where
  | PROCESS_NEW
  | PROCESS_READY
  | PROCESS_RUNNING
  | PROCESS_WAITING
  | PROCESS_TERMINATED
  deriving DecidableEq, Repr

/-- The fields of a process control block that the scheduler reads or writes. -/
structure pcb_t where
  state : process_state_t
  next : Option Nat
  remaining_time : Nat
  deriving DecidableEq, Repr

/-- Modelled from the spec: the scheduling policy kinds FIFO, RR and LRTF.  The
header that declares the constants `SCHED_FIFO` and `SCHED_RR` compared against
`scheduling` is not part of the sources; a kind for LRTF is named by the spec
only. -/
inductive sched_kind where
  | SCHED_FIFO
  | SCHED_RR
  | SCHED_LRTF
  deriving DecidableEq, Repr

/-- Calls made by the scheduler into the simulator. -/
inductive Event where
  | context_switch (cpu_id : Nat) (pcb : Option Nat) (quantum : Int)
  | force_preempt (cpu_id : Nat)
  deriving DecidableEq, Repr

/-- Ways in which a handler fails to return a state. -/
inductive Fault where
  | null_deref
  | blocked
  | out_of_fuel
  | assert_failed
  deriving DecidableEq, Repr

/-- The global state of `student.c` together with the PCB heap and the calls
issued so far. -/
structure Sched where
  pcbs : Nat → pcb_t
  head : Option Nat
  current : Nat → Option Nat
  scheduling : sched_kind
  timeslice : Int
  trace : List Event

/-- The assignment `pcb->next = n`. -/
def set_next (pcbs : Nat → pcb_t) (pcb : Nat) (n : Option Nat) : Nat → pcb_t :=
  fun i => if i = pcb then { pcbs i with next := n } else pcbs i

/-- The assignment `pcb->state = st`. -/
def set_state (pcbs : Nat → pcb_t) (pcb : Nat) (st : process_state_t) : Nat → pcb_t :=
  fun i => if i = pcb then { pcbs i with state := st } else pcbs i

/-- The assignment `current[cpu_id] = v`. -/
def set_current (current : Nat → Option Nat) (cpu_id : Nat) (v : Option Nat) :
    Nat → Option Nat :=
  fun c => if c = cpu_id then v else current c

/-- The loop `while (curr->next != NULL) curr = curr->next;` of `list_add`,
started at `curr`; `none` when the fuel runs out. -/
def list_add_walk (pcbs : Nat → pcb_t) : Nat → Nat → Option Nat
  | 0, _ => none
  | fuel + 1, curr =>
    match (pcbs curr).next with
    | none => some curr
    | some nxt => list_add_walk pcbs fuel nxt

/-- `list_add(pcb)`: link `pcb` behind the last node reached from `head` (or
make it the head of an empty queue), then clear `pcb->next`. -/
def list_add (fuel : Nat) (s : Sched) (pcb : Nat) : Except Fault Sched :=
  match s.head with
  | none => .ok { s with head := some pcb, pcbs := set_next s.pcbs pcb none }
  | some h =>
    match list_add_walk s.pcbs fuel h with
    | none => .error Fault.out_of_fuel
    | some curr =>
      .ok { s with pcbs := set_next (set_next s.pcbs curr (some pcb)) pcb none }

/-- `list_pop()`: return the head and advance `head` to its successor. -/
def list_pop (s : Sched) : Option Nat × Sched :=
  match s.head with
  | none => (none, s)
  | some ret => (some ret, { s with head := (s.pcbs ret).next })

/-- `schedule(cpu_id)`. -/
def schedule (s : Sched) (cpu_id : Nat) : Except Fault Sched :=
  match s.head with
  | some _ =>
    match list_pop s with
    | (none, _) => .error Fault.null_deref
    | (some runnable_process, s1) =>
      let s2 := { s1 with
        pcbs := set_state s1.pcbs runnable_process process_state_t.PROCESS_RUNNING }
      let s3 :=
        if s2.scheduling = sched_kind.SCHED_FIFO then
          { s2 with trace :=
              s2.trace ++ [Event.context_switch cpu_id (some runnable_process) (-1)] }
        else
          { s2 with trace :=
              s2.trace ++ [Event.context_switch cpu_id (some runnable_process) s2.timeslice] }
      .ok { s3 with current := set_current s3.current cpu_id (some runnable_process) }
  | none =>
    if s.scheduling = sched_kind.SCHED_FIFO then
      .ok { s with trace := s.trace ++ [Event.context_switch cpu_id none (-1)] }
    else
      .ok { s with trace := s.trace ++ [Event.context_switch cpu_id none s.timeslice] }

/-- A critical section of some thread, atomic with respect to the others: the
wait loop of `idle` under `list_mutex`, the first block of `preempt`, `yield`
or `terminate` under `current_mutex` (`pcb = current[cpu_id]; pcb->state = st`),
the unlocked write `process->state = st` of `wake_up`, `list_add` under
`list_mutex`, and `schedule` under `current_mutex`. -/
inductive Region where
  | idle_wait
  | mark (cpu_id : Nat) (st : process_state_t)
  | set_state (pcb : Nat) (st : process_state_t)
  | list_add (pcb : Nat)
  | schedule (cpu_id : Nat)
  deriving DecidableEq, Repr

/-- Run one critical section. -/
def run_region (fuel : Nat) (s : Sched) : Region → Except Fault Sched
  | Region.idle_wait =>
    match s.head with
    | none => .error Fault.blocked
    | some _ => .ok s
  | Region.mark cpu_id st =>
    match s.current cpu_id with
    | none => .error Fault.null_deref
    | some pcb => .ok { s with pcbs := set_state s.pcbs pcb st }
  | Region.set_state pcb st => .ok { s with pcbs := set_state s.pcbs pcb st }
  | Region.list_add pcb => list_add fuel s pcb
  | Region.schedule cpu_id => schedule s cpu_id

/-- Run critical sections of other threads one after the other. -/
def run_regions (fuel : Nat) : Sched → List Region → Except Fault Sched
  | s, [] => .ok s
  | s, r :: rs =>
    match run_region fuel s r with
    | .error e => .error e
    | .ok s1 => run_regions fuel s1 rs

/-- `idle(cpu_id)`: under `list_mutex` wait until the ready queue is non-empty
(with an empty queue the thread stays in `pthread_cond_wait`), release
`list_mutex`, then call `schedule`.  `others` are the critical sections that
other threads run between the release and `schedule`. -/
def idle (fuel : Nat) (s : Sched) (cpu_id : Nat) (others : List Region) :
    Except Fault Sched :=
  match s.head with
  | none => .error Fault.blocked
  | some _ =>
    match run_regions fuel s others with
    | .error e => .error e
    | .ok s1 => schedule s1 cpu_id

/-- `preempt(cpu_id)`: mark the current PCB READY under `current_mutex`, then
`list_add`, then `schedule`, with no lock held in between.  `others1` are the
critical sections that other threads run before `list_add`, `others2` those
they run between `list_add` and `schedule`. -/
def preempt (fuel : Nat) (s : Sched) (cpu_id : Nat) (others1 others2 : List Region) :
    Except Fault Sched :=
  match s.current cpu_id with
  | none => .error Fault.null_deref
  | some pcb =>
    let s1 := { s with pcbs := set_state s.pcbs pcb process_state_t.PROCESS_READY }
    match run_regions fuel s1 others1 with
    | .error e => .error e
    | .ok s2 =>
      match list_add fuel s2 pcb with
      | .error e => .error e
      | .ok s3 =>
        match run_regions fuel s3 others2 with
        | .error e => .error e
        | .ok s4 => schedule s4 cpu_id

/-- `yield(cpu_id)`. -/
def yield (s : Sched) (cpu_id : Nat) : Except Fault Sched :=
  match s.current cpu_id with
  | none => .error Fault.null_deref
  | some pcb =>
    schedule { s with pcbs := set_state s.pcbs pcb process_state_t.PROCESS_WAITING } cpu_id

/-- `terminate(cpu_id)`. -/
def terminate (s : Sched) (cpu_id : Nat) : Except Fault Sched :=
  match s.current cpu_id with
  | none => .error Fault.null_deref
  | some pcb =>
    schedule { s with pcbs := set_state s.pcbs pcb process_state_t.PROCESS_TERMINATED } cpu_id

/-- `wake_up(process)`. -/
def wake_up (fuel : Nat) (s : Sched) (process : Nat) : Except Fault Sched :=
  list_add fuel { s with pcbs := set_state s.pcbs process process_state_t.PROCESS_READY }
    process

/-! ## Abstraction of the ready queue -/

/-- The chain of `next` links that starts at `h` visits exactly the pointers of
the list and then reaches `NULL`. -/
def Linked (nxt : Nat → Option Nat) : Option Nat → List Nat → Prop
  | h, [] => h = none
  | h, q :: qs => h = some q ∧ Linked nxt (nxt q) qs

instance Linked.decide (nxt : Nat → Option Nat) :
    (h : Option Nat) → (l : List Nat) → Decidable (Linked nxt h l)
  | h, [] => inferInstanceAs (Decidable (h = none))
  | h, q :: qs =>
    have := Linked.decide nxt (nxt q) qs
    inferInstanceAs (Decidable (h = some q ∧ Linked nxt (nxt q) qs))

/-- The ready queue of `s`, read from `head` along `next`, is the list `l`. -/
def ReadyQueue (s : Sched) (l : List Nat) : Prop :=
  Linked (fun i => (s.pcbs i).next) s.head l

instance ReadyQueue.decide (s : Sched) (l : List Nat) : Decidable (ReadyQueue s l) :=
  inferInstanceAs (Decidable (Linked (fun i => (s.pcbs i).next) s.head l))

/-- The quantum that `schedule` hands to `context_switch` in state `s`. -/
def quantum (s : Sched) : Int :=
  if s.scheduling = sched_kind.SCHED_FIFO then -1 else s.timeslice

/-! ## Sequences of queue operations and of handler invocations -/

/-- One operation on the ready queue. -/
inductive QueueOp where
  | push (pcb : Nat)
  | pop
  deriving DecidableEq, Repr

/-- Run a sequence of `list_add` / `list_pop` calls; the second component lists
the PCBs returned by the pops, in the order in which they were returned (a pop
that returns `NULL` contributes nothing). -/
def run_ops (fuel : Nat) : Sched → List QueueOp → Except Fault (Sched × List Nat)
  | s, [] => .ok (s, [])
  | s, QueueOp.push p :: ops =>
    match list_add fuel s p with
    | .error e => .error e
    | .ok s1 => run_ops fuel s1 ops
  | s, QueueOp.pop :: ops =>
    match list_pop s with
    | (none, s1) => run_ops fuel s1 ops
    | (some r, s1) =>
      match run_ops fuel s1 ops with
      | .error e => .error e
      | .ok (s2, rs) => .ok (s2, r :: rs)

/-- The PCBs pushed by a sequence of operations, in insertion order. -/
def pushed : List QueueOp → List Nat
  | [] => []
  | QueueOp.push p :: ops => p :: pushed ops
  | QueueOp.pop :: ops => pushed ops

/-- Every push of the sequence inserts a PCB that is not enqueued at that
moment, when the queue holds `q` before the sequence and is operated first in,
first out. -/
def fresh_pushes : List Nat → List QueueOp → Prop
  | _, [] => True
  | q, QueueOp.push p :: ops => p ∉ q ∧ fresh_pushes (q ++ [p]) ops
  | q, QueueOp.pop :: ops => fresh_pushes q.tail ops

instance fresh_pushes.decide : (q : List Nat) → (ops : List QueueOp) →
    Decidable (fresh_pushes q ops)
  | _, [] => inferInstanceAs (Decidable True)
  | q, QueueOp.push p :: ops =>
    have := fresh_pushes.decide (q ++ [p]) ops
    inferInstanceAs (Decidable (p ∉ q ∧ fresh_pushes (q ++ [p]) ops))
  | q, QueueOp.pop :: ops => fresh_pushes.decide q.tail ops

/-- A handler invocation by the simulator. -/
inductive Call where
  | idle (cpu_id : Nat)
  | preempt (cpu_id : Nat)
  | yield (cpu_id : Nat)
  | terminate (cpu_id : Nat)
  | wake_up (process : Nat)
  deriving DecidableEq, Repr

/-- Execute one handler invocation with no other thread running between its
critical sections. -/
def exec (fuel : Nat) (s : Sched) : Call → Except Fault Sched
  | Call.idle c => idle fuel s c []
  | Call.preempt c => preempt fuel s c [] []
  | Call.yield c => yield s c
  | Call.terminate c => terminate s c
  | Call.wake_up p => wake_up fuel s p

/-- What the last `context_switch` on `cpu_id` installed there (`none` is the
idle process, also when no `context_switch` was issued for that CPU yet). -/
def installed (trace : List Event) (cpu_id : Nat) : Option Nat :=
  trace.foldl
    (fun acc e =>
      match e with
      | Event.context_switch c p _ => if c = cpu_id then p else acc
      | Event.force_preempt _ => acc)
    none

/-- The harness contract: `preempt`, `yield` and `terminate` come only for a
CPU on which the last `context_switch` installed a process, `idle` only for a
CPU on which it installed none, `wake_up` only for a PCB that is waiting or
new. -/
def permitted (s : Sched) : Call → Bool
  | Call.idle c => (installed s.trace c).isNone
  | Call.preempt c => (installed s.trace c).isSome
  | Call.yield c => (installed s.trace c).isSome
  | Call.terminate c => (installed s.trace c).isSome
  | Call.wake_up p =>
    decide ((s.pcbs p).state = process_state_t.PROCESS_WAITING ∨
      (s.pcbs p).state = process_state_t.PROCESS_NEW)

/-- The state before the simulator starts: empty ready queue, no CPU has a
current process, nothing was issued. -/
def initial_state (pcbs : Nat → pcb_t) (kind : sched_kind) (slice : Int) : Sched :=
  { pcbs := pcbs, head := none, current := fun _ => none, scheduling := kind,
    timeslice := slice, trace := [] }

/-- States reached from `s0` by handler invocations that respect the harness
contract and return. -/
inductive Reachable (s0 : Sched) : Sched → Prop where
  | init : Reachable s0 s0
  | step {s s1 : Sched} (c : Call) (fuel : Nat) :
      Reachable s0 s → permitted s c = true → exec fuel s c = .ok s1 → Reachable s0 s1

/-- The PCB `p` is a member of the ready queue of `s`. -/
def in_ready_queue (s : Sched) (p : Nat) : Prop :=
  ∃ l, ReadyQueue s l ∧ p ∈ l

/-- The state invariant of the data model: a queued PCB is READY and current on
no CPU; a current PCB is RUNNING and not queued. -/
def state_invariant (s : Sched) : Prop :=
  (∀ p, in_ready_queue s p →
    (s.pcbs p).state = process_state_t.PROCESS_READY ∧ ∀ cpu, s.current cpu ≠ some p) ∧
  (∀ cpu p, s.current cpu = some p →
    (s.pcbs p).state = process_state_t.PROCESS_RUNNING ∧ ¬ in_ready_queue s p)

/-- A heap in which every PCB is new, unlinked, and has the given remaining
time. -/
def new_pcbs (rem : Nat → Nat) : Nat → pcb_t :=
  fun i => { state := process_state_t.PROCESS_NEW, next := none, remaining_time := rem i }

/-! ## Concrete states -/

/-- A round-robin state with timeslice 3: PCB 1 runs on CPU 0, the ready queue
is `[2, 3]`. -/
def rr_state : Sched :=
  { pcbs := fun i =>
      match i with
      | 1 => { state := process_state_t.PROCESS_RUNNING, next := none, remaining_time := 5 }
      | 2 => { state := process_state_t.PROCESS_READY, next := some 3, remaining_time := 4 }
      | 3 => { state := process_state_t.PROCESS_READY, next := none, remaining_time := 8 }
      | _ => { state := process_state_t.PROCESS_NEW, next := none, remaining_time := 0 }
    head := some 2
    current := fun c => match c with
      | 0 => some 1
      | _ => none
    scheduling := sched_kind.SCHED_RR
    timeslice := 3
    trace := [] }

/-- A round-robin state with timeslice 3: PCB 1 runs on CPU 0, the ready queue
is empty. -/
def rr_state_empty : Sched :=
  { rr_state with head := none }

/-- Two CPUs under the given policy: PCB 10 (remaining time 5) runs on CPU 0,
PCB 11 (remaining time 4) runs on CPU 1, the ready queue is empty, PCB 12
(remaining time 8) waits for its I/O.  Indices 0 and 1 are the CPUs of this
configuration. -/
def two_cpu_state (kind : sched_kind) : Sched :=
  { pcbs := fun i =>
      match i with
      | 10 => { state := process_state_t.PROCESS_RUNNING, next := none, remaining_time := 5 }
      | 11 => { state := process_state_t.PROCESS_RUNNING, next := none, remaining_time := 4 }
      | 12 => { state := process_state_t.PROCESS_WAITING, next := none, remaining_time := 8 }
      | _ => { state := process_state_t.PROCESS_NEW, next := none, remaining_time := 0 }
    head := none
    current := fun c => match c with
      | 0 => some 10
      | 1 => some 11
      | _ => none
    scheduling := kind
    timeslice := -1
    trace := [] }

/-- Remaining times for the ordering example: PCB 2 has 8 units left, every
other PCB 3. -/
def remaining_3_8 (i : Nat) : Nat :=
  if i = 2 then 8 else 3

/-! ## Queue well-formedness -/

/-- The `next` linkage from `head` reaches `NULL` (no cycle) and visits no PCB
twice. -/
def queue_well_formed (s : Sched) : Prop :=
  ∃ l, ReadyQueue s l ∧ l.Nodup

/-! ## `main` -/

/-- The statics `scheduling` and `timeslice` that `main` assigns. -/
structure Policy where
  scheduling : sched_kind
  timeslice : Int
  deriving DecidableEq, Repr

/-- What `main` does, in program order: the usage message on standard error, a
read of `argv[i]`, the allocation of `current[]` and the call of
`start_simulator`. -/
inductive MainEvent where
  | usage
  | read_argv (i : Nat)
  | malloc_current (cpu_count : Nat)
  | start_simulator (cpu_count : Nat)
  deriving DecidableEq, Repr

/-- The outcome of `main`: the statics as it leaves them, what it did, and its
return value (or the fault that ended it). -/
structure MainResult where
  policy : Policy
  events : List MainEvent
  ret : Except Fault Int

/-- The part of `main` behind argument parsing: allocate `current[]`, assert that
the allocation succeeded, start the simulator, return 0.  `alloc_ok` tells
whether `malloc` returned a non-null pointer; `start_simulator` is taken to
return. -/
def main_start (alloc_ok : Bool) (pol : Policy) (events : List MainEvent)
    (cpu_count : Nat) : MainResult :=
  if alloc_ok then
    { policy := pol
      events := events ++
        [MainEvent.malloc_current cpu_count, MainEvent.start_simulator cpu_count]
      ret := .ok 0 }
  else
    { policy := pol
      events := events ++ [MainEvent.malloc_current cpu_count]
      ret := .error Fault.assert_failed }

/-- `main(argc, argv)` with `argc = argv.length`; `argv[argc]` is the null
pointer.  The library conversions `strtoul` and `atoi` are parameters, `pol` is
the value of the statics on entry.  `atoi` applied to the null pointer is a
fault. -/
def main (strtoul : String → Nat) (atoi : String → Int) (alloc_ok : Bool) (pol : Policy)
    (argv : List String) : MainResult :=
  if argv.length < 2 ∨ argv.length > 4 then
    { policy := pol, events := [MainEvent.usage], ret := .ok (-1) }
  else
    let pol1 : Policy := { scheduling := sched_kind.SCHED_FIFO, timeslice := -1 }
    match argv[1]? with
    | none =>
      { policy := pol1, events := [MainEvent.read_argv 1], ret := .error Fault.null_deref }
    | some a1 =>
      let cpu_count := strtoul a1 % 2 ^ 32
      if argv.length > 2 then
        match argv[2]? with
        | none =>
          { policy := pol1, events := [MainEvent.read_argv 1, MainEvent.read_argv 2],
            ret := .error Fault.null_deref }
        | some a2 =>
          if a2 = "-r" then
            match argv[3]? with
            | none =>
              { policy := pol1
                events := [MainEvent.read_argv 1, MainEvent.read_argv 2,
                  MainEvent.read_argv 3]
                ret := .error Fault.null_deref }
            | some a3 =>
              main_start alloc_ok { scheduling := sched_kind.SCHED_RR, timeslice := atoi a3 }
                [MainEvent.read_argv 1, MainEvent.read_argv 2, MainEvent.read_argv 3]
                cpu_count
          else
            main_start alloc_ok pol1 [MainEvent.read_argv 1, MainEvent.read_argv 2] cpu_count
      else
        main_start alloc_ok pol1 [MainEvent.read_argv 1] cpu_count

/-- Decimal value of the leading digits of a character list. -/
def digits_value : List Char → Nat → Nat
  | [], acc => acc
  | c :: cs, acc =>
    if c.isDigit then digits_value cs (acc * 10 + (c.toNat - 48)) else acc

/-- A decimal `strtoul` for concrete runs. -/
def strtoul_decimal (s : String) : Nat :=
  digits_value s.data 0

/-- A decimal `atoi` for concrete runs: an optional minus sign and digits. -/
def atoi_decimal (s : String) : Int :=
  match s.data with
  | '-' :: cs => -(digits_value cs 0 : Int)
  | cs => (digits_value cs 0 : Int)

/-- The statics before `main` runs in the concrete runs. -/
def entry_policy : Policy :=
  { scheduling := sched_kind.SCHED_FIFO, timeslice := 0 }

/-- The two mutexes of `student.c`. -/
inductive Mutex where
  | current_mutex
  | list_mutex
  deriving DecidableEq, Repr

/-- Synchronisation operations and calls into the simulator, as a handler performs
them in program order. -/
inductive SyncOp where
  | lock (m : Mutex)
  | unlock (m : Mutex)
  | cond_wait
  | cond_broadcast
  | call_context_switch
  | call_force_preempt
  deriving DecidableEq, Repr

/-- Operations of `list_add`. -/
def list_add_sync : List SyncOp :=
  [SyncOp.lock Mutex.list_mutex, SyncOp.cond_broadcast, SyncOp.unlock Mutex.list_mutex]

/-- Operations of `list_pop`. -/
def list_pop_sync : List SyncOp :=
  [SyncOp.lock Mutex.list_mutex, SyncOp.unlock Mutex.list_mutex]

/-- Operations of `schedule`; `head_non_null` is the outcome of its test
`head != NULL`. -/
def schedule_sync (head_non_null : Bool) : List SyncOp :=
  [SyncOp.lock Mutex.current_mutex] ++
    (if head_non_null then list_pop_sync ++ [SyncOp.call_context_switch]
      else [SyncOp.call_context_switch]) ++
    [SyncOp.unlock Mutex.current_mutex]

/-- Operations of `idle` when its loop waits `waits` times. -/
def idle_sync (waits : Nat) (head_non_null : Bool) : List SyncOp :=
  [SyncOp.lock Mutex.list_mutex] ++ List.replicate waits SyncOp.cond_wait ++
    [SyncOp.unlock Mutex.list_mutex] ++ schedule_sync head_non_null

/-- Operations of `preempt`. -/
def preempt_sync (head_non_null : Bool) : List SyncOp :=
  [SyncOp.lock Mutex.current_mutex, SyncOp.unlock Mutex.current_mutex] ++ list_add_sync ++
    schedule_sync head_non_null

/-- Operations of `yield`. -/
def yield_sync (head_non_null : Bool) : List SyncOp :=
  [SyncOp.lock Mutex.current_mutex, SyncOp.unlock Mutex.current_mutex] ++
    schedule_sync head_non_null

/-- Operations of `terminate`. -/
def terminate_sync (head_non_null : Bool) : List SyncOp :=
  [SyncOp.lock Mutex.current_mutex, SyncOp.unlock Mutex.current_mutex] ++
    schedule_sync head_non_null

/-- Operations of `wake_up`. -/
def wake_up_sync : List SyncOp :=
  list_add_sync

/-- Operations of a handler invocation. -/
def handler_sync (waits : Nat) (head_non_null : Bool) : Call → List SyncOp
  | Call.idle _ => idle_sync waits head_non_null
  | Call.preempt _ => preempt_sync head_non_null
  | Call.yield _ => yield_sync head_non_null
  | Call.terminate _ => terminate_sync head_non_null
  | Call.wake_up _ => wake_up_sync

/-- Which mutexes the thread holds. -/
structure Held where
  current_mutex : Bool
  list_mutex : Bool
  deriving DecidableEq, Repr

/-- The mutexes held after an operation.  `pthread_cond_wait` returns with the
mutex held again. -/
def Held.after (h : Held) : SyncOp → Held
  | SyncOp.lock Mutex.current_mutex => { h with current_mutex := true }
  | SyncOp.lock Mutex.list_mutex => { h with list_mutex := true }
  | SyncOp.unlock Mutex.current_mutex => { h with current_mutex := false }
  | SyncOp.unlock Mutex.list_mutex => { h with list_mutex := false }
  | _ => h

/-- No operation of the sequence is `bad` for the mutexes held when it is
performed. -/
def never (bad : Held → SyncOp → Bool) : Held → List SyncOp → Bool
  | _, [] => true
  | h, op :: ops => !bad h op && never bad (h.after op) ops

/-- Acquiring `list_mutex` while `current_mutex` is held. -/
def takes_list_under_current (h : Held) : SyncOp → Bool
  | SyncOp.lock Mutex.list_mutex => h.current_mutex
  | _ => false

/-- Acquiring `current_mutex` while `list_mutex` is held. -/
def takes_current_under_list (h : Held) : SyncOp → Bool
  | SyncOp.lock Mutex.current_mutex => h.list_mutex
  | _ => false

/-- Calling `context_switch` or `force_preempt` while `list_mutex` is held. -/
def calls_harness_under_list (h : Held) : SyncOp → Bool
  | SyncOp.call_context_switch => h.list_mutex
  | SyncOp.call_force_preempt => h.list_mutex
  | _ => false

/-- A thread that holds no mutex. -/
def no_lock : Held :=
  { current_mutex := false, list_mutex := false }

/-! ## Basic facts about heap updates and chains -/

theorem set_next_same (pcbs : Nat → pcb_t) (p : Nat) (n : Option Nat) :
    (set_next pcbs p n p).next = n := by
  simp [set_next]

theorem set_next_other (pcbs : Nat → pcb_t) (p i : Nat) (n : Option Nat) (h : i ≠ p) :
    set_next pcbs p n i = pcbs i := by
  simp [set_next, h]

theorem set_next_state (pcbs : Nat → pcb_t) (p i : Nat) (n : Option Nat) :
    (set_next pcbs p n i).state = (pcbs i).state := by
  unfold set_next; split <;> rfl

theorem set_next_remaining_time (pcbs : Nat → pcb_t) (p i : Nat) (n : Option Nat) :
    (set_next pcbs p n i).remaining_time = (pcbs i).remaining_time := by
  unfold set_next; split <;> rfl

theorem set_state_remaining_time (pcbs : Nat → pcb_t) (p i : Nat) (st : process_state_t) :
    (set_state pcbs p st i).remaining_time = (pcbs i).remaining_time := by
  unfold set_state; split <;> rfl

theorem set_state_next (pcbs : Nat → pcb_t) (p i : Nat) (st : process_state_t) :
    (set_state pcbs p st i).next = (pcbs i).next := by
  unfold set_state; split <;> rfl

theorem set_state_same (pcbs : Nat → pcb_t) (p : Nat) (st : process_state_t) :
    (set_state pcbs p st p).state = st := by
  simp [set_state]

theorem set_state_other (pcbs : Nat → pcb_t) (p i : Nat) (st : process_state_t) (h : i ≠ p) :
    set_state pcbs p st i = pcbs i := by
  simp [set_state, h]

/-- A chain only depends on the links of the nodes it visits. -/
theorem Linked.congr {nxt nxt' : Nat → Option Nat} :
    ∀ {l : List Nat} {h : Option Nat}, Linked nxt h l → (∀ x ∈ l, nxt' x = nxt x) →
      Linked nxt' h l
  | [], _, hl, _ => hl
  | q :: qs, _, hl, hx => by
    refine ⟨hl.1, ?_⟩
    rw [hx q (List.mem_cons_self q qs)]
    exact Linked.congr hl.2 (fun x hxm => hx x (List.mem_cons_of_mem q hxm))

/-- The chain from a given start is unique. -/
theorem Linked.unique {nxt : Nat → Option Nat} :
    ∀ {l₁ l₂ : List Nat} {h : Option Nat}, Linked nxt h l₁ → Linked nxt h l₂ → l₁ = l₂
  | [], [], _, _, _ => rfl
  | [], _ :: _, _, h1, h2 => by
    have h1' : _ = none := h1
    rw [h1'] at h2
    exact absurd h2.1 (by simp)
  | _ :: _, [], _, h1, h2 => by
    have h2' : _ = none := h2
    rw [h2'] at h1
    exact absurd h1.1 (by simp)
  | a :: l₁, b :: l₂, _, h1, h2 => by
    have hab : a = b := by
      have := h1.1.symm.trans h2.1
      simpa using this
    subst hab
    rw [Linked.unique h1.2 h2.2]

/-- The part of a chain behind a prefix is the chain from where the prefix ends. -/
theorem Linked.suffix {nxt : Nat → Option Nat} :
    ∀ (xs : List Nat) {a : Nat} {ys : List Nat} {h : Option Nat},
      Linked nxt h (xs ++ a :: ys) → Linked nxt (some a) (a :: ys)
  | [], _, _, _, hl => ⟨rfl, hl.2⟩
  | _ :: xs, _, _, _, hl => Linked.suffix xs hl.2

/-- A chain that reaches `NULL` visits no node twice. -/
theorem Linked.nodup {nxt : Nat → Option Nat} :
    ∀ {l : List Nat} {h : Option Nat}, Linked nxt h l → l.Nodup
  | [], _, _ => List.nodup_nil
  | q :: qs, _, hl => by
    refine List.nodup_cons.mpr ⟨?_, Linked.nodup hl.2⟩
    intro hmem
    obtain ⟨xs, ys, hsplit⟩ := List.append_of_mem hmem
    have h1 : Linked nxt (some q) (q :: qs) := ⟨rfl, hl.2⟩
    have h2 : Linked nxt (some q) (q :: ys) := by
      have h3 := hl.2
      rw [hsplit] at h3
      exact Linked.suffix xs h3
    have hlen := congrArg List.length (Linked.unique h1 h2)
    rw [hsplit] at hlen
    simp at hlen
    omega

/-! ## `list_add`, `list_pop` and `schedule` on a well-formed queue -/

/-- On a chain that reaches `NULL` the walk of `list_add` stops at the last
node, provided the fuel exceeds the number of links followed. -/
theorem list_add_walk_last (pcbs : Nat → pcb_t) :
    ∀ (qs : List Nat) (q fuel : Nat),
      Linked (fun i => (pcbs i).next) (pcbs q).next qs → qs.length < fuel →
      list_add_walk pcbs fuel q = some ((q :: qs).getLast (List.cons_ne_nil q qs))
  | [], q, fuel, hl, hf => by
    obtain ⟨f, rfl⟩ : ∃ f, fuel = f + 1 := ⟨fuel - 1, by omega⟩
    have hn : (pcbs q).next = none := hl
    simp [list_add_walk, hn]
  | r :: rs, q, fuel, hl, hf => by
    obtain ⟨f, rfl⟩ : ∃ f, fuel = f + 1 := ⟨fuel - 1, by omega⟩
    have hn : (pcbs q).next = some r := hl.1
    have ih := list_add_walk_last pcbs rs r f hl.2 (by simp at hf; omega)
    simp [list_add_walk, hn, ih]

/-- Linking `p` behind the last node of a chain that does not contain `p`
extends the chain by `p`. -/
theorem Linked.snoc {nxt nxt' : Nat → Option Nat} (p : Nat) (hp : nxt' p = none) :
    ∀ (qs : List Nat) (q : Nat), Linked nxt (nxt q) qs → (q :: qs).Nodup → p ∉ q :: qs →
      nxt' ((q :: qs).getLast (List.cons_ne_nil q qs)) = some p →
      (∀ x, x ≠ p → x ≠ (q :: qs).getLast (List.cons_ne_nil q qs) → nxt' x = nxt x) →
      Linked nxt' (some q) (q :: qs ++ [p])
  | [], q, _, _, _, hlast, _ => by
    simp only [List.getLast_singleton] at hlast
    exact ⟨rfl, by rw [hlast]; exact ⟨rfl, hp⟩⟩
  | r :: rs, q, hl, hnd, hpm, hlast, hfr => by
    have hlast' : (q :: r :: rs).getLast (List.cons_ne_nil q (r :: rs)) =
        (r :: rs).getLast (List.cons_ne_nil r rs) := by simp
    rw [hlast'] at hlast hfr
    have hqp : q ≠ p := fun h => hpm (h ▸ List.mem_cons_self q (r :: rs))
    have hql : q ≠ (r :: rs).getLast (List.cons_ne_nil r rs) := by
      intro h
      have hm : q ∈ r :: rs := h ▸ List.getLast_mem (List.cons_ne_nil r rs)
      exact (List.nodup_cons.mp hnd).1 hm
    refine ⟨rfl, ?_⟩
    rw [hfr q hqp hql, hl.1]
    exact Linked.snoc p hp rs r hl.2 (List.nodup_cons.mp hnd).2
      (fun h => hpm (List.mem_cons_of_mem q h)) hlast hfr

/-- `list_add` of a PCB that is not enqueued: the call returns, the queue grows
by that PCB at the tail, its `next` is `NULL`, and nothing but `next` fields
changes. -/
theorem list_add_appends (fuel : Nat) (s : Sched) (p : Nat) (qs : List Nat)
    (hq : ReadyQueue s qs) (hp : p ∉ qs) (hf : qs.length ≤ fuel) :
    ∃ s1, list_add fuel s p = .ok s1 ∧ ReadyQueue s1 (qs ++ [p]) ∧
      (s1.pcbs p).next = none ∧
      (∀ i, (s1.pcbs i).state = (s.pcbs i).state) ∧
      (∀ i, (s1.pcbs i).remaining_time = (s.pcbs i).remaining_time) ∧
      s1.current = s.current ∧ s1.trace = s.trace ∧
      s1.scheduling = s.scheduling ∧ s1.timeslice = s.timeslice := by
  cases qs with
  | nil =>
    have hh : s.head = none := hq
    refine ⟨{ s with head := some p, pcbs := set_next s.pcbs p none }, ?_, ?_, ?_, ?_, ?_,
      rfl, rfl, rfl, rfl⟩
    · simp [list_add, hh]
    · exact ⟨rfl, set_next_same s.pcbs p none⟩
    · exact set_next_same s.pcbs p none
    · intro i; exact set_next_state s.pcbs p i none
    · intro i; exact set_next_remaining_time s.pcbs p i none
  | cons q rest =>
    have hh : s.head = some q := hq.1
    have hnd : (q :: rest).Nodup := Linked.nodup hq
    have hw := list_add_walk_last s.pcbs rest q fuel hq.2 (by simpa using hf)
    refine ⟨{ s with pcbs := set_next (set_next s.pcbs
      ((q :: rest).getLast (List.cons_ne_nil q rest)) (some p)) p none }, ?_, ?_, ?_, ?_, ?_,
      rfl, rfl, rfl, rfl⟩
    · simp [list_add, hh, hw]
    · show Linked _ s.head ((q :: rest) ++ [p])
      rw [hh]
      refine Linked.snoc p (set_next_same _ p none) rest q hq.2 hnd hp ?_ ?_
      · have hne : (q :: rest).getLast (List.cons_ne_nil q rest) ≠ p := by
          intro h
          exact hp (h ▸ List.getLast_mem (List.cons_ne_nil q rest))
        show (set_next _ p none _).next = some p
        rw [set_next_other _ _ _ _ hne]
        exact set_next_same _ _ _
      · intro x hxp hxl
        show (set_next _ p none x).next = (s.pcbs x).next
        rw [set_next_other _ _ _ _ hxp, set_next_other _ _ _ _ hxl]
    · exact set_next_same _ p none
    · intro i; rw [set_next_state, set_next_state]
    · intro i
      show (set_next (set_next s.pcbs _ (some p)) p none i).remaining_time = _
      rw [set_next_remaining_time, set_next_remaining_time]

/-- The quantum does not depend on the heap, the queue or the trace. -/
theorem quantum_congr {s s1 : Sched} (hk : s1.scheduling = s.scheduling)
    (ht : s1.timeslice = s.timeslice) : quantum s1 = quantum s := by
  simp [quantum, hk, ht]

/-- `schedule` on a non-empty queue, as one state update. -/
theorem schedule_some (s : Sched) (cpu_id q : Nat) (h : s.head = some q) :
    schedule s cpu_id = .ok
      { s with
        head := (s.pcbs q).next
        pcbs := set_state s.pcbs q process_state_t.PROCESS_RUNNING
        trace := s.trace ++ [Event.context_switch cpu_id (some q) (quantum s)]
        current := set_current s.current cpu_id (some q) } := by
  by_cases hk : s.scheduling = sched_kind.SCHED_FIFO <;>
    simp [schedule, list_pop, h, quantum, hk]

/-- `schedule` on an empty queue, as one state update. -/
theorem schedule_none (s : Sched) (cpu_id : Nat) (h : s.head = none) :
    schedule s cpu_id = .ok
      { s with trace := s.trace ++ [Event.context_switch cpu_id none (quantum s)] } := by
  by_cases hk : s.scheduling = sched_kind.SCHED_FIFO <;>
    simp [schedule, h, quantum, hk]

/-- Writing `state` fields does not change the queue. -/
theorem ReadyQueue.set_state {s : Sched} {l : List Nat} (p : Nat) (st : process_state_t)
    (hq : ReadyQueue s l) : ReadyQueue { s with pcbs := set_state s.pcbs p st } l :=
  Linked.congr hq (fun x _ => set_state_next s.pcbs p x st)

/-- What `schedule` does to a state whose ready queue is `q :: qs`. -/
theorem schedule_dispatches_head (s : Sched) (cpu_id q : Nat) (qs : List Nat)
    (hq : ReadyQueue s (q :: qs)) :
    ∃ s1, schedule s cpu_id = .ok s1 ∧ ReadyQueue s1 qs ∧
      s1.current = set_current s.current cpu_id (some q) ∧
      s1.pcbs = set_state s.pcbs q process_state_t.PROCESS_RUNNING ∧
      s1.trace = s.trace ++ [Event.context_switch cpu_id (some q) (quantum s)] ∧
      s1.scheduling = s.scheduling ∧ s1.timeslice = s.timeslice :=
  ⟨_, schedule_some s cpu_id q hq.1,
    Linked.congr hq.2 (fun x _ => set_state_next s.pcbs q x _), rfl, rfl, rfl, rfl, rfl⟩

/-- `list_add` issues nothing and leaves the Current Table and the policy
alone, whatever the queue looks like. -/
theorem list_add_frame (fuel : Nat) (s s1 : Sched) (p : Nat) (h : list_add fuel s p = .ok s1) :
    s1.trace = s.trace ∧ s1.current = s.current ∧ s1.scheduling = s.scheduling ∧
      s1.timeslice = s.timeslice := by
  unfold list_add at h
  split at h
  · cases h; exact ⟨rfl, rfl, rfl, rfl⟩
  · split at h
    · cases h
    · cases h; exact ⟨rfl, rfl, rfl, rfl⟩

/-- `wake_up` issues nothing (no `context_switch`, no `force_preempt`) under
any policy. -/
theorem wake_up_frame (fuel : Nat) (s s1 : Sched) (p : Nat) (h : wake_up fuel s p = .ok s1) :
    s1.trace = s.trace ∧ s1.current = s.current :=
  ⟨(list_add_frame fuel _ s1 p h).1, (list_add_frame fuel _ s1 p h).2.1⟩

/-- `schedule` always returns and issues exactly one `context_switch`, for the
head of the queue it finds (none on an empty queue). -/
theorem schedule_trace (s : Sched) (cpu_id : Nat) :
    ∃ s1, schedule s cpu_id = .ok s1 ∧
      s1.trace = s.trace ++ [Event.context_switch cpu_id s.head (quantum s)] ∧
      s1.scheduling = s.scheduling ∧ s1.timeslice = s.timeslice := by
  cases hh : s.head with
  | none => exact ⟨_, schedule_none s cpu_id hh, rfl, rfl, rfl⟩
  | some q => exact ⟨_, schedule_some s cpu_id q hh, rfl, rfl, rfl⟩

/-- No critical section writes the policy statics. -/
theorem run_region_policy (fuel : Nat) (s s1 : Sched) (r : Region)
    (h : run_region fuel s r = .ok s1) :
    s1.scheduling = s.scheduling ∧ s1.timeslice = s.timeslice := by
  cases r with
  | idle_wait =>
    simp only [run_region] at h
    split at h
    · cases h
    · cases h; exact ⟨rfl, rfl⟩
  | mark c st =>
    simp only [run_region] at h
    split at h
    · cases h
    · cases h; exact ⟨rfl, rfl⟩
  | set_state q st =>
    simp only [run_region] at h
    cases h; exact ⟨rfl, rfl⟩
  | list_add q =>
    exact (list_add_frame fuel s s1 q h).2.2
  | schedule c =>
    obtain ⟨s2, h2, _, hk, ht⟩ := schedule_trace s c
    have hs : s2 = s1 := Except.ok.inj (h2.symm.trans h)
    exact hs ▸ ⟨hk, ht⟩

/-- No sequence of critical sections writes the policy statics. -/
theorem run_regions_policy (fuel : Nat) :
    ∀ (rs : List Region) (s s1 : Sched), run_regions fuel s rs = .ok s1 →
      s1.scheduling = s.scheduling ∧ s1.timeslice = s.timeslice
  | [], s, s1, h => by
    simp only [run_regions] at h
    cases h; exact ⟨rfl, rfl⟩
  | r :: rs, s, s1, h => by
    simp only [run_regions] at h
    cases hr : run_region fuel s r with
    | error e => rw [hr] at h; cases h
    | ok s2 =>
      rw [hr] at h
      obtain ⟨hk2, ht2⟩ := run_region_policy fuel s s2 r hr
      obtain ⟨hk, ht⟩ := run_regions_policy fuel rs s2 s1 h
      exact ⟨hk.trans hk2, ht.trans ht2⟩

/-- `idle` on an empty queue blocks, whatever other threads would do. -/
theorem idle_none (fuel : Nat) (s : Sched) (cpu_id : Nat) (others : List Region)
    (h : s.head = none) : idle fuel s cpu_id others = .error Fault.blocked := by
  simp [idle, h]

/-- `idle` on a non-empty queue is `schedule` on the state that the other
threads leave. -/
theorem idle_some (fuel : Nat) (s s1 : Sched) (cpu_id q : Nat) (others : List Region)
    (h : s.head = some q) (ho : run_regions fuel s others = .ok s1) :
    idle fuel s cpu_id others = schedule s1 cpu_id := by
  simp [idle, h, ho]

/-- `preempt` is `schedule` on the state that results from marking the current
PCB READY, the first interference, `list_add` and the second interference. -/
theorem preempt_steps (fuel : Nat) (s s2 s3 s4 : Sched) (cpu_id p : Nat)
    (others1 others2 : List Region) (hcur : s.current cpu_id = some p)
    (h1 : run_regions fuel
      { s with pcbs := set_state s.pcbs p process_state_t.PROCESS_READY } others1 = .ok s2)
    (h2 : list_add fuel s2 p = .ok s3) (h3 : run_regions fuel s3 others2 = .ok s4) :
    preempt fuel s cpu_id others1 others2 = schedule s4 cpu_id := by
  simp [preempt, hcur, h1, h2, h3]

/-! ## Handlers -/

/-- Claim C1 as stated fails: PCB 1 runs on CPU 0 and the ready queue is empty.
`preempt(0)` appends PCB 1; before it reaches `schedule`, CPU 1, woken from
`idle` by the broadcast of `list_add`, passes its wait loop and runs
`schedule(1)`, which pops PCB 1.  `preempt(0)` then finds the queue empty and
issues `context_switch(0, NULL, 3)`: PCB 1 is dispatched on CPU 1, not on
CPU 0. -/
theorem preempt_interleaved_dispatches_none :
    rr_state_empty.current 0 = some 1 ∧ ReadyQueue rr_state_empty [] ∧
    ∃ s1, preempt 1 rr_state_empty 0 [] [Region.idle_wait, Region.schedule 1] = .ok s1 ∧
      s1.trace = [Event.context_switch 1 (some 1) 3, Event.context_switch 0 none 3] ∧
      Event.context_switch 0 (some 1) 3 ∉ s1.trace ∧
      s1.current 1 = some 1 ∧ ReadyQueue s1 [] := by
  refine ⟨rfl, by decide, _, rfl, ?_, ?_, ?_, ?_⟩ <;> decide

/-- Claim C1 amended: in a state where `current[cpu] = p` and the ready queue is
`qs` without `p`, `preempt(cpu)` sets `p` READY, appends it at the tail and calls
`schedule(cpu)`.  When no other thread runs between these critical sections it
returns and, for `qs = q1 :: rest`, the queue becomes `rest ++ [p]`,
`current[cpu] = q1`, `q1` is RUNNING and `p` is READY; for `qs = []` the queue
is empty again, `current[cpu] = p` and `p` is RUNNING; the trace grows by exactly
one `context_switch(cpu, dispatched, quantum)`.  When other threads run in
between, `preempt(cpu)` is `schedule(cpu)` on the state they leave: it issues
exactly one `context_switch(cpu, h, quantum)` where `h` is the head of the queue
at that moment, none when the queue has been emptied.  (A queue that reaches
`NULL` is duplicate-free, see `Linked.nodup`.) -/
theorem preempt_requeues_at_tail_then_dispatches_head (fuel : Nat) (s : Sched)
    (cpu_id p : Nat) (qs : List Nat) (hcur : s.current cpu_id = some p)
    (hq : ReadyQueue s qs) (hnd : qs.Nodup) (hp : p ∉ qs) (hf : qs.length ≤ fuel) :
    (∃ s1, preempt fuel s cpu_id [] [] = .ok s1 ∧
      (∀ q1 rest, qs = q1 :: rest →
        ReadyQueue s1 (rest ++ [p]) ∧ s1.current cpu_id = some q1 ∧
        (s1.pcbs q1).state = process_state_t.PROCESS_RUNNING ∧
        (s1.pcbs p).state = process_state_t.PROCESS_READY ∧
        s1.trace = s.trace ++ [Event.context_switch cpu_id (some q1) (quantum s)]) ∧
      (qs = [] →
        ReadyQueue s1 [] ∧ s1.current cpu_id = some p ∧
        (s1.pcbs p).state = process_state_t.PROCESS_RUNNING ∧
        s1.trace = s.trace ++ [Event.context_switch cpu_id (some p) (quantum s)])) ∧
    (∀ others1 others2 s2 s3 s4,
      run_regions fuel
        { s with pcbs := set_state s.pcbs p process_state_t.PROCESS_READY } others1 = .ok s2 →
      list_add fuel s2 p = .ok s3 →
      run_regions fuel s3 others2 = .ok s4 →
      preempt fuel s cpu_id others1 others2 = schedule s4 cpu_id ∧
      ∃ s5, preempt fuel s cpu_id others1 others2 = .ok s5 ∧
        s5.trace = s4.trace ++ [Event.context_switch cpu_id s4.head (quantum s)]) := by
  have _ := hnd
  constructor
  · obtain ⟨s2, h2, hq2, _, hst2, _, hcur2, htr2, hk2, hts2⟩ :=
      list_add_appends fuel
        { s with pcbs := set_state s.pcbs p process_state_t.PROCESS_READY }
        p qs (ReadyQueue.set_state p _ hq) hp hf
    have hquant : quantum s2 = quantum s := quantum_congr hk2 hts2
    have hpre : preempt fuel s cpu_id [] [] = schedule s2 cpu_id :=
      preempt_steps fuel s _ s2 s2 cpu_id p [] [] hcur rfl h2 rfl
    cases qs with
    | nil =>
      obtain ⟨s3, h3, hq3, hcur3, hpc3, htr3, _, _⟩ :=
        schedule_dispatches_head s2 cpu_id p [] hq2
      refine ⟨s3, hpre.trans h3, ?_, ?_⟩
      · intro q1 rest h; cases h
      · intro _
        refine ⟨hq3, ?_, ?_, ?_⟩
        · rw [hcur3]; simp [set_current]
        · rw [hpc3]; exact set_state_same _ _ _
        · rw [htr3, htr2, hquant]
    | cons q rest =>
      obtain ⟨s3, h3, hq3, hcur3, hpc3, htr3, _, _⟩ :=
        schedule_dispatches_head s2 cpu_id q (rest ++ [p]) hq2
      refine ⟨s3, hpre.trans h3, ?_, ?_⟩
      · intro q1 rest1 h
        obtain ⟨rfl, rfl⟩ := List.cons.inj h
        have hpq : p ≠ q := fun e => hp (e ▸ List.mem_cons_self p rest)
        refine ⟨hq3, ?_, ?_, ?_, ?_⟩
        · rw [hcur3]; simp [set_current]
        · rw [hpc3]; exact set_state_same _ _ _
        · rw [hpc3, set_state_other _ _ _ _ hpq, hst2 p]
          exact set_state_same _ _ _
        · rw [htr3, htr2, hquant]
      · intro h; cases h
  · intro others1 others2 s2 s3 s4 h1 h2 h3
    have hpre := preempt_steps fuel s s2 s3 s4 cpu_id p others1 others2 hcur h1 h2 h3
    obtain ⟨s5, h5, htr5, _, _⟩ := schedule_trace s4 cpu_id
    obtain ⟨hk2, ht2⟩ := run_regions_policy fuel others1 _ s2 h1
    obtain ⟨_, _, hk3, ht3⟩ := list_add_frame fuel s2 s3 p h2
    obtain ⟨hk4, ht4⟩ := run_regions_policy fuel others2 s3 s4 h3
    have hquant : quantum s4 = quantum s :=
      quantum_congr (hk4.trans (hk3.trans hk2)) (ht4.trans (ht3.trans ht2))
    exact ⟨hpre, s5, hpre.trans h5, by rw [htr5, hquant]⟩

/-- Witness of C1 amended on `rr_state`: PCB 1 is preempted on CPU 0 while
`[2, 3]` is queued, first alone and then with CPU 1 running `schedule(1)` behind
the `list_add`. -/
theorem preempt_requeues_at_tail_then_dispatches_head_witness :
    (∃ s1, preempt 2 rr_state 0 [] [] = .ok s1 ∧
      (∀ q1 rest, [2, 3] = q1 :: rest →
        ReadyQueue s1 (rest ++ [1]) ∧ s1.current 0 = some q1 ∧
        (s1.pcbs q1).state = process_state_t.PROCESS_RUNNING ∧
        (s1.pcbs 1).state = process_state_t.PROCESS_READY ∧
        s1.trace = rr_state.trace ++ [Event.context_switch 0 (some q1) (quantum rr_state)]) ∧
      ([2, 3] = ([] : List Nat) →
        ReadyQueue s1 [] ∧ s1.current 0 = some 1 ∧
        (s1.pcbs 1).state = process_state_t.PROCESS_RUNNING ∧
        s1.trace = rr_state.trace ++
          [Event.context_switch 0 (some 1) (quantum rr_state)])) ∧
    ∃ s3 s4,
      list_add 2 { rr_state with
        pcbs := set_state rr_state.pcbs 1 process_state_t.PROCESS_READY } 1 = .ok s3 ∧
      run_regions 2 s3 [Region.schedule 1] = .ok s4 ∧ s4.head = some 3 ∧
      (preempt 2 rr_state 0 [] [Region.schedule 1] = schedule s4 0 ∧
        ∃ s5, preempt 2 rr_state 0 [] [Region.schedule 1] = .ok s5 ∧
          s5.trace = s4.trace ++ [Event.context_switch 0 s4.head (quantum rr_state)]) :=
  ⟨(preempt_requeues_at_tail_then_dispatches_head 2 rr_state 0 1 [2, 3] (by decide)
      (by decide) (by decide) (by decide) (by decide)).1,
    _, _, rfl, rfl, by decide,
    (preempt_requeues_at_tail_then_dispatches_head 2 rr_state 0 1 [2, 3] (by decide)
      (by decide) (by decide) (by decide) (by decide)).2 [] [Region.schedule 1] _ _ _
      rfl rfl rfl⟩

/-- Claim C3: `wake_up(p)` for a PCB `p` outside the ready queue `qs` returns; `p` is
READY with `next = NULL`, the queue is `qs ++ [p]` (one longer), the Current Table,
the state of every other PCB and the trace (so no `context_switch`) are
unchanged. -/
theorem wake_up_enqueues_at_tail (fuel : Nat) (s : Sched) (p : Nat) (qs : List Nat)
    (hq : ReadyQueue s qs) (hp : p ∉ qs) (hf : qs.length ≤ fuel) :
    ∃ s1, wake_up fuel s p = .ok s1 ∧
      (s1.pcbs p).state = process_state_t.PROCESS_READY ∧ (s1.pcbs p).next = none ∧
      ReadyQueue s1 (qs ++ [p]) ∧ (qs ++ [p]).length = qs.length + 1 ∧
      s1.current = s.current ∧
      (∀ i, i ≠ p → (s1.pcbs i).state = (s.pcbs i).state) ∧
      s1.trace = s.trace := by
  obtain ⟨s1, h1, hq1, hn1, hst1, _, hcur1, htr1, _, _⟩ :=
    list_add_appends fuel { s with pcbs := set_state s.pcbs p process_state_t.PROCESS_READY }
      p qs (ReadyQueue.set_state p _ hq) hp hf
  refine ⟨s1, h1, ?_, hn1, hq1, by simp, hcur1, ?_, htr1⟩
  · rw [hst1 p]; exact set_state_same _ _ _
  · intro i hi
    rw [hst1 i]
    show (set_state s.pcbs p _ i).state = _
    rw [set_state_other _ _ _ _ hi]

/-- Witness of C3 on `rr_state`: the new PCB 4 is woken while `[2, 3]` is
queued. -/
theorem wake_up_enqueues_at_tail_witness :
    ∃ s1, wake_up 2 rr_state 4 = .ok s1 ∧
      (s1.pcbs 4).state = process_state_t.PROCESS_READY ∧ (s1.pcbs 4).next = none ∧
      ReadyQueue s1 ([2, 3] ++ [4]) ∧ ([2, 3] ++ [4]).length = [2, 3].length + 1 ∧
      s1.current = rr_state.current ∧
      (∀ i, i ≠ 4 → (s1.pcbs i).state = (rr_state.pcbs i).state) ∧
      s1.trace = rr_state.trace :=
  wake_up_enqueues_at_tail 2 rr_state 4 [2, 3] (by decide) (by decide) (by decide)

/-! ## First in, first out -/

/-- `list_pop` on a queue `q :: qs` returns `q` and leaves `qs`. -/
theorem list_pop_cons (s : Sched) (q : Nat) (qs : List Nat) (hq : ReadyQueue s (q :: qs)) :
    list_pop s = (some q, { s with head := (s.pcbs q).next }) ∧
      ReadyQueue { s with head := (s.pcbs q).next } qs := by
  have hh : s.head = some q := hq.1
  exact ⟨by simp [list_pop, hh], hq.2⟩

/-- `list_pop` on the empty queue returns `NULL` and changes nothing. -/
theorem list_pop_nil (s : Sched) (hq : ReadyQueue s []) : list_pop s = (none, s) := by
  have hh : s.head = none := hq
  simp [list_pop, hh]

/-- Refinement of the linked queue by a list operated first in, first out: what
was queued and then pushed is what was popped followed by what is still
queued. -/
theorem run_ops_fifo (fuel : Nat) :
    ∀ (ops : List QueueOp) (s : Sched) (q : List Nat), ReadyQueue s q → fresh_pushes q ops →
      q.length + ops.length ≤ fuel →
      ∃ s1 popped rest, run_ops fuel s ops = .ok (s1, popped) ∧ ReadyQueue s1 rest ∧
        q ++ pushed ops = popped ++ rest
  | [], s, q, hq, _, _ => ⟨s, [], q, rfl, hq, by simp [pushed]⟩
  | QueueOp.push p :: ops, s, q, hq, hfr, hf => by
    obtain ⟨s1, h1, hq1, _⟩ := list_add_appends fuel s p q hq hfr.1
      (by simp at hf; omega)
    obtain ⟨s2, popped, rest, h2, hq2, heq⟩ := run_ops_fifo fuel ops s1 (q ++ [p]) hq1 hfr.2
      (by simp at hf ⊢; omega)
    refine ⟨s2, popped, rest, ?_, hq2, ?_⟩
    · simp only [run_ops, h1]; exact h2
    · rw [← heq]; simp [pushed]
  | QueueOp.pop :: ops, s, [], hq, hfr, hf => by
    obtain ⟨s2, popped, rest, h2, hq2, heq⟩ := run_ops_fifo fuel ops s [] hq hfr
      (by simp at hf ⊢; omega)
    refine ⟨s2, popped, rest, ?_, hq2, ?_⟩
    · simp only [run_ops, list_pop_nil s hq]; exact h2
    · rw [← heq]; simp [pushed]
  | QueueOp.pop :: ops, s, a :: q, hq, hfr, hf => by
    obtain ⟨hpop, hq1⟩ := list_pop_cons s a q hq
    obtain ⟨s2, popped, rest, h2, hq2, heq⟩ := run_ops_fifo fuel ops _ q hq1 hfr
      (by simp at hf ⊢; omega)
    refine ⟨s2, a :: popped, rest, ?_, hq2, ?_⟩
    · simp only [run_ops, hpop, h2]
    · simp only [pushed, List.cons_append, heq]

/-- Claim C2 (FIFO order law): every sequence of `list_add` / `list_pop` calls that
starts on the empty queue and pushes a PCB only while it is not enqueued returns
(with fuel at least the number of calls); the PCBs popped are the first pushed
ones in insertion order, the queue holds the remaining pushed ones in insertion
order, and the next `list_pop` returns the oldest remaining one.  So of two PCBs
pushed at positions `i < j`, the later one is popped only after the earlier
one. -/
theorem fifo_order_law (fuel : Nat) (s : Sched) (ops : List QueueOp) (hempty : s.head = none)
    (hfresh : fresh_pushes [] ops) (hf : ops.length ≤ fuel) :
    ∃ s1 popped, run_ops fuel s ops = .ok (s1, popped) ∧
      popped = (pushed ops).take popped.length ∧
      ReadyQueue s1 ((pushed ops).drop popped.length) ∧
      (list_pop s1).1 = ((pushed ops).drop popped.length).head? ∧
      (∀ i j, i < j → j < popped.length →
        i < popped.length ∧ popped[i]? = (pushed ops)[i]? ∧ popped[j]? = (pushed ops)[j]?) := by
  obtain ⟨s1, popped, rest, h1, hq1, heq⟩ := run_ops_fifo fuel ops s [] hempty hfresh
    (by simpa using hf)
  have heq' : pushed ops = popped ++ rest := by simpa using heq
  have hget : ∀ i, i < popped.length → popped[i]? = (pushed ops)[i]? := by
    intro i hi
    rw [heq', List.getElem?_append_left hi]
  refine ⟨s1, popped, h1, ?_, ?_, ?_, ?_⟩
  · rw [heq', List.take_left]
  · rw [heq', List.drop_left]; exact hq1
  · rw [heq', List.drop_left]
    cases rest with
    | nil => rw [list_pop_nil s1 hq1]; rfl
    | cons a r => rw [(list_pop_cons s1 a r hq1).1]; rfl
  · intro i j hij hj
    exact ⟨by omega, hget i (by omega), hget j hj⟩

/-- Witness of C2: push 1, push 2, pop, push 3, pop, push 1 on the empty
round-robin state. -/
theorem fifo_order_law_witness :
    ∃ s1 popped,
      run_ops 6 rr_state_empty
        [QueueOp.push 1, QueueOp.push 2, QueueOp.pop, QueueOp.push 3, QueueOp.pop,
          QueueOp.push 1] = .ok (s1, popped) ∧
      popped = (pushed [QueueOp.push 1, QueueOp.push 2, QueueOp.pop, QueueOp.push 3,
        QueueOp.pop, QueueOp.push 1]).take popped.length ∧
      ReadyQueue s1 ((pushed [QueueOp.push 1, QueueOp.push 2, QueueOp.pop, QueueOp.push 3,
        QueueOp.pop, QueueOp.push 1]).drop popped.length) ∧
      (list_pop s1).1 = ((pushed [QueueOp.push 1, QueueOp.push 2, QueueOp.pop,
        QueueOp.push 3, QueueOp.pop, QueueOp.push 1]).drop popped.length).head? ∧
      (∀ i j, i < j → j < popped.length →
        i < popped.length ∧
        popped[i]? = (pushed [QueueOp.push 1, QueueOp.push 2, QueueOp.pop, QueueOp.push 3,
          QueueOp.pop, QueueOp.push 1])[i]? ∧
        popped[j]? = (pushed [QueueOp.push 1, QueueOp.push 2, QueueOp.pop, QueueOp.push 3,
          QueueOp.pop, QueueOp.push 1])[j]?) :=
  fifo_order_law 6 rr_state_empty _ rfl (by decide) (by decide)

/-- Claim C8 as stated fails: the queue holds PCB 1 only and CPU 0 and CPU 1 are both
in `idle`.  CPU 0 observes the queue non-empty and releases `list_mutex`; before
it reaches `schedule`, CPU 1 passes its own wait loop and runs `schedule(1)`,
which pops PCB 1.  `idle(0)` then issues `context_switch(0, NULL, -1)`. -/
theorem idle_interleaved_dispatches_none :
    ∃ s0 s1,
      wake_up 1 (initial_state (new_pcbs (fun _ => 0)) sched_kind.SCHED_FIFO (-1)) 1 = .ok s0 ∧
      ReadyQueue s0 [1] ∧
      idle 1 s0 0 [Region.idle_wait, Region.schedule 1] = .ok s1 ∧
      s1.trace = [Event.context_switch 1 (some 1) (-1), Event.context_switch 0 none (-1)] ∧
      s1.current 0 = none ∧ s1.current 1 = some 1 := by
  refine ⟨_, _, rfl, ?_, rfl, ?_, ?_, ?_⟩ <;> decide

/-- Claim C8 amended: `idle(cpu)` calls `schedule` only after it has observed the
ready queue non-empty under `list_mutex`, but it releases `list_mutex` before
the call.  With a non-empty ready queue `q :: qs` and no other thread running
in between, `idle(cpu)` is `schedule(cpu)`: it returns, issues one
`context_switch` with the process `q` and sets `current[cpu] = q`.  When other
threads run in between, `idle(cpu)` is `schedule(cpu)` on the state they leave
and issues exactly one `context_switch(cpu, h, quantum)` where `h` is the head
of the queue at that moment, none when the queue has been drained.  With an
empty ready queue it blocks without issuing anything; once a PCB `p` has been
pushed by `wake_up`, `idle(cpu)` dispatches it. -/
theorem idle_schedules_only_on_nonempty_queue (fuel : Nat) (s : Sched) (cpu_id : Nat) :
    (∀ q qs, ReadyQueue s (q :: qs) →
      idle fuel s cpu_id [] = schedule s cpu_id ∧
      (∃ s1, idle fuel s cpu_id [] = .ok s1 ∧ ReadyQueue s1 qs ∧
        s1.current cpu_id = some q ∧
        s1.trace = s.trace ++ [Event.context_switch cpu_id (some q) (quantum s)]) ∧
      (∀ others s1, run_regions fuel s others = .ok s1 →
        idle fuel s cpu_id others = schedule s1 cpu_id ∧
        ∃ s2, idle fuel s cpu_id others = .ok s2 ∧
          s2.trace = s1.trace ++ [Event.context_switch cpu_id s1.head (quantum s)])) ∧
    (ReadyQueue s [] →
      (∀ others, idle fuel s cpu_id others = .error Fault.blocked) ∧
      ∀ p, ∃ s1 s2, wake_up fuel s p = .ok s1 ∧ idle fuel s1 cpu_id [] = .ok s2 ∧
        s2.current cpu_id = some p ∧
        s2.trace = s.trace ++ [Event.context_switch cpu_id (some p) (quantum s)]) := by
  constructor
  · intro q qs hq
    have hh : s.head = some q := hq.1
    have hidle : idle fuel s cpu_id [] = schedule s cpu_id :=
      idle_some fuel s s cpu_id q [] hh rfl
    obtain ⟨s1, h1, hq1, hcur1, _, htr1, _, _⟩ := schedule_dispatches_head s cpu_id q qs hq
    refine ⟨hidle, ⟨s1, hidle.trans h1, hq1, ?_, htr1⟩, ?_⟩
    · rw [hcur1]; simp [set_current]
    · intro others s1 ho
      have hi := idle_some fuel s s1 cpu_id q others hh ho
      obtain ⟨s2, h2, htr2, _, _⟩ := schedule_trace s1 cpu_id
      obtain ⟨hk, ht⟩ := run_regions_policy fuel others s s1 ho
      exact ⟨hi, s2, hi.trans h2, by rw [htr2, quantum_congr hk ht]⟩
  · intro hq
    have hh : s.head = none := hq
    refine ⟨fun others => idle_none fuel s cpu_id others hh, ?_⟩
    intro p
    obtain ⟨s1, h1, hq1, _, _, _, _, htr1, hk1, hts1⟩ :=
      list_add_appends fuel
        { s with pcbs := set_state s.pcbs p process_state_t.PROCESS_READY } p []
        (ReadyQueue.set_state p _ hq) (List.not_mem_nil p) (Nat.zero_le fuel)
    have hq1' : ReadyQueue s1 [p] := hq1
    have hh1 : s1.head = some p := hq1'.1
    obtain ⟨s2, h2, _, hcur2, _, htr2, _, _⟩ := schedule_dispatches_head s1 cpu_id p [] hq1'
    have hk : quantum s1 = quantum s := quantum_congr hk1 hts1
    refine ⟨s1, s2, h1, (idle_some fuel s1 s1 cpu_id p [] hh1 rfl).trans h2, ?_, ?_⟩
    · rw [hcur2]; simp [set_current]
    · rw [htr2, htr1, hk]

/-- Witness of C8 amended: on `rr_state` (queue `[2, 3]`), alone and with CPU 1
running `schedule(1)` in between, and on `rr_state_empty`. -/
theorem idle_schedules_only_on_nonempty_queue_witness :
    (idle 1 rr_state 0 [] = schedule rr_state 0 ∧
      (∃ s1, idle 1 rr_state 0 [] = .ok s1 ∧ ReadyQueue s1 [3] ∧ s1.current 0 = some 2 ∧
        s1.trace = rr_state.trace ++
          [Event.context_switch 0 (some 2) (quantum rr_state)]) ∧
      (∀ others s1, run_regions 1 rr_state others = .ok s1 →
        idle 1 rr_state 0 others = schedule s1 0 ∧
        ∃ s2, idle 1 rr_state 0 others = .ok s2 ∧
          s2.trace = s1.trace ++ [Event.context_switch 0 s1.head (quantum rr_state)])) ∧
    ((∀ others, idle 1 rr_state_empty 0 others = .error Fault.blocked) ∧
      ∀ p, ∃ s1 s2, wake_up 1 rr_state_empty p = .ok s1 ∧ idle 1 s1 0 [] = .ok s2 ∧
        s2.current 0 = some p ∧
        s2.trace = rr_state_empty.trace ++
          [Event.context_switch 0 (some p) (quantum rr_state_empty)]) :=
  ⟨(idle_schedules_only_on_nonempty_queue 1 rr_state 0).1 2 [3] (by decide),
    (idle_schedules_only_on_nonempty_queue 1 rr_state_empty 0).2 (by decide)⟩

/-! ## Behaviour at concrete inputs -/

/-- Claim C4, the code at the scenario of the claim: CPU 0 runs PCB 10 (remaining
time 5), CPU 1 runs PCB 11 (remaining time 4, the minimum), the queue is empty
and PCB 12 with remaining time 8 is woken.  Under every policy kind, LRTF
included, `wake_up` returns with an empty trace: `force_preempt(1)` is not
issued. -/
theorem wake_up_under_lrtf_issues_no_force_preempt :
    ∀ kind : sched_kind,
      (two_cpu_state kind).current 0 = some 10 ∧
      (two_cpu_state kind).current 1 = some 11 ∧
      ((two_cpu_state kind).pcbs 11).remaining_time <
        ((two_cpu_state kind).pcbs 10).remaining_time ∧
      ((two_cpu_state kind).pcbs 11).remaining_time <
        ((two_cpu_state kind).pcbs 12).remaining_time ∧
      ∃ s1, wake_up 1 (two_cpu_state kind) 12 = .ok s1 ∧
        ReadyQueue s1 [12] ∧ s1.trace = [] ∧ Event.force_preempt 1 ∉ s1.trace := by
  intro kind
  cases kind <;>
    exact ⟨rfl, rfl, by decide, by decide, _, rfl, by decide, rfl, by decide⟩

/-- Claim C5, the code at a failing input: PCB 1 (remaining time 3) and then PCB 2
(remaining time 8) are woken on the empty queue.  Under every policy kind, LRTF
included, the queue is `[1, 2]`, in insertion order, and `schedule(0)`
dispatches PCB 1 although PCB 2 has the larger remaining time. -/
theorem schedule_under_lrtf_dispatches_oldest_not_longest :
    ∀ kind : sched_kind, ∃ s1 s2 s3,
      wake_up 2 (initial_state (new_pcbs remaining_3_8) kind (-1)) 1 = .ok s1 ∧
      wake_up 2 s1 2 = .ok s2 ∧ ReadyQueue s2 [1, 2] ∧
      (s2.pcbs 1).remaining_time = 3 ∧ (s2.pcbs 2).remaining_time = 8 ∧
      schedule s2 0 = .ok s3 ∧ s3.trace = [Event.context_switch 0 (some 1) (-1)] ∧
      s3.current 0 = some 1 ∧ ReadyQueue s3 [2] := by
  intro kind
  cases kind <;>
    exact ⟨_, _, _, rfl, rfl, by decide, by decide, by decide, rfl, by decide, by decide,
      by decide⟩

/-- Claim C7, the code at a failing input: PCB 1 runs on CPU 0 and the ready queue is
empty.  After `terminate(0)` PCB 1 is TERMINATED and the queue is empty, but
`current[0]` still refers to PCB 1, it is not `none`. -/
theorem terminate_on_empty_queue_keeps_current :
    rr_state_empty.current 0 = some 1 ∧ ReadyQueue rr_state_empty [] ∧
    ∃ s1, terminate rr_state_empty 0 = .ok s1 ∧
      (s1.pcbs 1).state = process_state_t.PROCESS_TERMINATED ∧ ReadyQueue s1 [] ∧
      s1.current 0 = some 1 ∧ s1.current 0 ≠ none ∧
      s1.trace = [Event.context_switch 0 none 3] := by
  refine ⟨rfl, by decide, _, rfl, ?_, ?_, ?_, ?_, ?_⟩ <;> decide

/-- Claim C9, the code on a run that respects the harness contract: from the initial
state, `wake_up(1)` of the new PCB 1, `idle(0)`, `yield(0)`.  The state reached
has `current[0] = 1` while PCB 1 is WAITING, so the state invariant does not
hold in it; after a further `wake_up(1)` PCB 1 is in the ready queue and still
the current PCB of CPU 0. -/
theorem state_invariant_broken_by_yield_on_empty_queue :
    ∃ s s1, Reachable (initial_state (new_pcbs (fun _ => 0)) sched_kind.SCHED_FIFO (-1)) s ∧
      s.current 0 = some 1 ∧ (s.pcbs 1).state = process_state_t.PROCESS_WAITING ∧
      ¬ state_invariant s ∧
      Reachable (initial_state (new_pcbs (fun _ => 0)) sched_kind.SCHED_FIFO (-1)) s1 ∧
      s1.current 0 = some 1 ∧ in_ready_queue s1 1 ∧ ¬ state_invariant s1 := by
  have r0 : Reachable (initial_state (new_pcbs (fun _ => 0)) sched_kind.SCHED_FIFO (-1))
      (initial_state (new_pcbs (fun _ => 0)) sched_kind.SCHED_FIFO (-1)) := Reachable.init
  have r1 := Reachable.step (Call.wake_up 1) 1 r0 (by decide) rfl
  have r2 := Reachable.step (Call.idle 0) 1 r1 (by decide) rfl
  have r3 := Reachable.step (Call.yield 0) 1 r2 (by decide) rfl
  have r4 := Reachable.step (Call.wake_up 1) 1 r3 (by decide) rfl
  refine ⟨_, _, r3, by decide, by decide, ?_, r4, by decide, ⟨[1], by decide, by decide⟩, ?_⟩
  · intro hinv
    exact absurd (hinv.2 0 1 (by decide)).1 (by decide)
  · intro hinv
    exact absurd (hinv.2 0 1 (by decide)).1 (by decide)

/-- In every state `schedule(cpu)` returns and issues exactly one
`context_switch(cpu, head, quantum)`, where the quantum is -1 when `scheduling`
is `SCHED_FIFO` and the stored timeslice otherwise. -/
theorem schedule_issues_one_context_switch (s : Sched) (cpu_id : Nat) :
    ∃ s1, schedule s cpu_id = .ok s1 ∧
      s1.trace = s.trace ++
        [Event.context_switch cpu_id s.head
          (match s.scheduling with
            | sched_kind.SCHED_FIFO => -1
            | sched_kind.SCHED_RR => s.timeslice
            | sched_kind.SCHED_LRTF => s.timeslice)] := by
  have hquant : quantum s =
      (match s.scheduling with
        | sched_kind.SCHED_FIFO => -1
        | sched_kind.SCHED_RR => s.timeslice
        | sched_kind.SCHED_LRTF => s.timeslice) := by
    unfold quantum
    cases s.scheduling <;> simp
  cases hh : s.head with
  | none => exact ⟨_, schedule_none s cpu_id hh, by rw [← hquant]⟩
  | some q => exact ⟨_, schedule_some s cpu_id q hh, by rw [← hquant]⟩

/-! ## `list_add` on an arbitrary well-formed queue -/

/-- The last element of a list lies behind any of its split points. -/
theorem getLast_mem_of_split (l xs ys : List Nat) (p : Nat) (hne : l ≠ [])
    (h : l = xs ++ p :: ys) : l.getLast hne ∈ p :: ys := by
  subst h
  rw [List.getLast_append_of_ne_nil (List.cons_ne_nil p ys)]
  exact List.getLast_mem _

/-- Clearing the link of a node of a chain cuts the chain behind that node. -/
theorem Linked.truncate {nxt nxt' : Nat → Option Nat} (p : Nat) (hp : nxt' p = none) :
    ∀ (xs : List Nat) (h : Option Nat) (ys : List Nat), Linked nxt h (xs ++ p :: ys) →
      (∀ x ∈ xs, nxt' x = nxt x) → Linked nxt' h (xs ++ [p])
  | [], _, _, hl, _ => ⟨hl.1, hp⟩
  | x :: xs, _, ys, hl, hx => by
    refine ⟨hl.1, ?_⟩
    rw [hx x (List.mem_cons_self x xs)]
    exact Linked.truncate p hp xs _ ys hl.2 (fun y hy => hx y (List.mem_cons_of_mem x hy))

/-- `list_add` on a queue that reaches `NULL` returns, whether or not the PCB is
already enqueued: a PCB that is not enqueued is appended, a PCB that is
enqueued becomes the last node and everything behind it is unlinked. -/
theorem list_add_result (fuel : Nat) (s : Sched) (p : Nat) (qs : List Nat)
    (hq : ReadyQueue s qs) (hf : qs.length ≤ fuel) :
    ∃ s1, list_add fuel s p = .ok s1 ∧
      (p ∉ qs → ReadyQueue s1 (qs ++ [p])) ∧
      (∀ xs ys, qs = xs ++ p :: ys → ReadyQueue s1 (xs ++ [p])) := by
  cases qs with
  | nil =>
    obtain ⟨s1, h1, hq1, _⟩ := list_add_appends fuel s p [] hq (List.not_mem_nil p) hf
    refine ⟨s1, h1, fun _ => hq1, ?_⟩
    intro xs ys h
    exact absurd h.symm (List.append_ne_nil_of_right_ne_nil xs (List.cons_ne_nil p ys))
  | cons q rest =>
    have hh : s.head = some q := hq.1
    have hnd : (q :: rest).Nodup := Linked.nodup hq
    have hw := list_add_walk_last s.pcbs rest q fuel hq.2 (by simpa using hf)
    have h1 : list_add fuel s p = .ok { s with pcbs := set_next (set_next s.pcbs
        ((q :: rest).getLast (List.cons_ne_nil q rest)) (some p)) p none } := by
      simp [list_add, hh, hw]
    refine ⟨_, h1, ?_, ?_⟩
    · intro hp
      obtain ⟨s2, h2, hq2, _⟩ := list_add_appends fuel s p (q :: rest) hq hp hf
      have hs : s2 = _ := Except.ok.inj (h2.symm.trans h1)
      rw [← hs]; exact hq2
    · intro xs ys hsplit
      have hq' : Linked (fun i => (s.pcbs i).next) s.head (xs ++ p :: ys) := hsplit ▸ hq
      have hnd' : (xs ++ p :: ys).Nodup := hsplit ▸ hnd
      have hlast := getLast_mem_of_split (q :: rest) xs ys p (List.cons_ne_nil q rest) hsplit
      refine Linked.truncate p (set_next_same _ p none) xs s.head ys hq' ?_
      intro x hx
      have hdisj : x ∉ p :: ys := fun hm => (List.disjoint_of_nodup_append hnd') hx hm
      have hxp : x ≠ p := fun e => hdisj (e ▸ List.mem_cons_self p ys)
      have hxl : x ≠ (q :: rest).getLast (List.cons_ne_nil q rest) :=
        fun e => hdisj (e ▸ hlast)
      show (set_next _ p none x).next = (s.pcbs x).next
      rw [set_next_other _ _ _ _ hxp, set_next_other _ _ _ _ hxl]

/-- More fuel does not change where the walk of `list_add` stops. -/
theorem list_add_walk_mono (pcbs : Nat → pcb_t) (k : Nat) :
    ∀ (fuel curr c : Nat), list_add_walk pcbs fuel curr = some c →
      list_add_walk pcbs (fuel + k) curr = some c
  | 0, _, _, h => by simp [list_add_walk] at h
  | fuel + 1, curr, c, h => by
    rw [Nat.add_right_comm]
    unfold list_add_walk at h ⊢
    cases hn : (pcbs curr).next with
    | none => rw [hn] at h; exact h
    | some nxt =>
      rw [hn] at h
      exact list_add_walk_mono pcbs k fuel nxt c h

/-- A `list_add` that returns returns the same state with more fuel. -/
theorem list_add_mono (fuel k : Nat) (s s1 : Sched) (p : Nat)
    (h : list_add fuel s p = .ok s1) : list_add (fuel + k) s p = .ok s1 := by
  unfold list_add at h ⊢
  cases hh : s.head with
  | none => rw [hh] at h; exact h
  | some q =>
    rw [hh] at h
    simp only at h ⊢
    cases hw : list_add_walk s.pcbs fuel q with
    | none => rw [hw] at h; cases h
    | some c =>
      rw [hw] at h
      rw [list_add_walk_mono s.pcbs k fuel q c hw]
      exact h

/-- `list_add` keeps the queue well-formed, also for a PCB that is already
enqueued. -/
theorem list_add_well_formed (fuel : Nat) (s s1 : Sched) (p : Nat)
    (hwf : queue_well_formed s) (h : list_add fuel s p = .ok s1) : queue_well_formed s1 := by
  obtain ⟨qs, hq, _⟩ := hwf
  obtain ⟨s2, h2, hnew, hold⟩ := list_add_result (fuel + qs.length) s p qs hq (by omega)
  have hs : s2 = s1 := Except.ok.inj (h2.symm.trans (list_add_mono fuel qs.length s s1 p h))
  subst hs
  by_cases hp : p ∈ qs
  · obtain ⟨xs, ys, hsplit⟩ := List.append_of_mem hp
    exact ⟨_, hold xs ys hsplit, Linked.nodup (hold xs ys hsplit)⟩
  · exact ⟨_, hnew hp, Linked.nodup (hnew hp)⟩

/-- Claim C11: under every policy and in every state, what `wake_up(P)` issues
contains `force_preempt(c)` only if no Current Table entry is none and
`current[c]` has a smaller remaining time than `P`; indeed it issues nothing,
so there is no `force_preempt` when a CPU is idle or on a tie.  On a queue that
reaches `NULL`, `wake_up` returns. -/
theorem wake_up_force_preempt_only_if (fuel : Nat) (s : Sched) (p : Nat) :
    (∀ s1, wake_up fuel s p = .ok s1 →
      ∃ issued, s1.trace = s.trace ++ issued ∧
        (∀ c, Event.force_preempt c ∉ issued) ∧
        (∀ c, Event.force_preempt c ∈ issued →
          (∀ cpu, s.current cpu ≠ none) ∧
          ∃ q, s.current c = some q ∧
            (s.pcbs q).remaining_time < (s.pcbs p).remaining_time)) ∧
    (∀ qs, ReadyQueue s qs → qs.length ≤ fuel → ∃ s1, wake_up fuel s p = .ok s1) := by
  constructor
  · intro s1 h
    refine ⟨[], ?_, fun c hc => List.not_mem_nil _ hc, fun c hc => absurd hc (List.not_mem_nil _)⟩
    rw [(wake_up_frame fuel s s1 p h).1, List.append_nil]
  · intro qs hq hf
    obtain ⟨s1, h1, _⟩ := list_add_result fuel
      { s with pcbs := set_state s.pcbs p process_state_t.PROCESS_READY } p qs
      (ReadyQueue.set_state p _ hq) hf
    exact ⟨s1, h1⟩

/-- Witness of C11 on `two_cpu_state` under LRTF, where PCB 12 is woken on the
empty queue: `wake_up` returns and the conclusion holds for the state it
returns. -/
theorem wake_up_force_preempt_only_if_witness :
    (∃ s1, wake_up 1 (two_cpu_state sched_kind.SCHED_LRTF) 12 = .ok s1) ∧
    ∀ s1, wake_up 1 (two_cpu_state sched_kind.SCHED_LRTF) 12 = .ok s1 →
      ∃ issued, s1.trace = (two_cpu_state sched_kind.SCHED_LRTF).trace ++ issued ∧
        (∀ c, Event.force_preempt c ∉ issued) ∧
        (∀ c, Event.force_preempt c ∈ issued →
          (∀ cpu, (two_cpu_state sched_kind.SCHED_LRTF).current cpu ≠ none) ∧
          ∃ q, (two_cpu_state sched_kind.SCHED_LRTF).current c = some q ∧
            ((two_cpu_state sched_kind.SCHED_LRTF).pcbs q).remaining_time <
              ((two_cpu_state sched_kind.SCHED_LRTF).pcbs 12).remaining_time) :=
  ⟨(wake_up_force_preempt_only_if 1 (two_cpu_state sched_kind.SCHED_LRTF) 12).2 []
      (by decide) (by decide),
    (wake_up_force_preempt_only_if 1 (two_cpu_state sched_kind.SCHED_LRTF) 12).1⟩

/-- Claim C15: on a ready queue `q1 :: rest`, `schedule(cpu)` returns; it removes
exactly `q1` (the queue becomes `rest`, which does not contain `q1`), sets `q1`
RUNNING and `current[cpu] = q1`, issues `context_switch(cpu, q1, quantum)`, and
leaves every other Current Table entry and the state of every other PCB
unchanged. -/
theorem schedule_pops_and_dispatches_head (s : Sched) (cpu_id q1 : Nat) (rest : List Nat)
    (hq : ReadyQueue s (q1 :: rest)) (hnd : (q1 :: rest).Nodup) :
    ∃ s1, schedule s cpu_id = .ok s1 ∧
      ReadyQueue s1 rest ∧ ¬ in_ready_queue s1 q1 ∧
      (s1.pcbs q1).state = process_state_t.PROCESS_RUNNING ∧
      s1.current cpu_id = some q1 ∧
      s1.trace = s.trace ++ [Event.context_switch cpu_id (some q1) (quantum s)] ∧
      (∀ c, c ≠ cpu_id → s1.current c = s.current c) ∧
      (∀ i, i ≠ q1 → (s1.pcbs i).state = (s.pcbs i).state) := by
  obtain ⟨s1, h1, hq1, hcur1, hpc1, htr1, _, _⟩ := schedule_dispatches_head s cpu_id q1 rest hq
  refine ⟨s1, h1, hq1, ?_, ?_, ?_, htr1, ?_, ?_⟩
  · rintro ⟨l, hl, hm⟩
    have hl0 : l = rest := Linked.unique hl hq1
    rw [hl0] at hm
    exact (List.nodup_cons.mp hnd).1 hm
  · rw [hpc1]; exact set_state_same _ _ _
  · rw [hcur1]; simp [set_current]
  · intro c hc; rw [hcur1]; simp [set_current, hc]
  · intro i hi; rw [hpc1, set_state_other _ _ _ _ hi]

/-- Witness of C15 on `rr_state`, whose ready queue is `[2, 3]`. -/
theorem schedule_pops_and_dispatches_head_witness :
    ∃ s1, schedule rr_state 0 = .ok s1 ∧
      ReadyQueue s1 [3] ∧ ¬ in_ready_queue s1 2 ∧
      (s1.pcbs 2).state = process_state_t.PROCESS_RUNNING ∧
      s1.current 0 = some 2 ∧
      s1.trace = rr_state.trace ++ [Event.context_switch 0 (some 2) (quantum rr_state)] ∧
      (∀ c, c ≠ 0 → s1.current c = rr_state.current c) ∧
      (∀ i, i ≠ 2 → (s1.pcbs i).state = (rr_state.pcbs i).state) :=
  schedule_pops_and_dispatches_head rr_state 0 2 [3] (by decide) (by decide)

/-- Claim C16, the code at a failing input: PCB 1 is `current[0]` and the ready queue
is empty.  `schedule(0)` issues `context_switch(0, NULL, 3)` and leaves the queue
empty, but `current[0]` is still PCB 1: none is not recorded. -/
theorem schedule_on_empty_queue_keeps_current :
    rr_state_empty.current 0 = some 1 ∧ ReadyQueue rr_state_empty [] ∧
    ∃ s1, schedule rr_state_empty 0 = .ok s1 ∧
      s1.trace = [Event.context_switch 0 none 3] ∧ ReadyQueue s1 [] ∧
      s1.current 0 = some 1 ∧ s1.current 0 ≠ none := by
  refine ⟨rfl, by decide, _, rfl, ?_, ?_, ?_, ?_⟩ <;> decide

/-- Claim C19: on an acyclic duplicate-free ready queue `qs`, `list_add(p)` returns
and the queue afterwards is acyclic and duplicate-free.  If `p` is not enqueued
the queue is `qs ++ [p]`; if `qs = xs ++ p :: ys` the queue is the prefix
`xs ++ [p]` and no PCB of `ys` is in the ready queue any more; the queue is
unchanged exactly when `p` was the tail. -/
theorem list_add_never_creates_cycle (fuel : Nat) (s : Sched) (p : Nat) (qs : List Nat)
    (hq : ReadyQueue s qs) (hnd : qs.Nodup) (hf : qs.length ≤ fuel) :
    ∃ s1, list_add fuel s p = .ok s1 ∧ queue_well_formed s1 ∧
      (p ∉ qs → ReadyQueue s1 (qs ++ [p])) ∧
      (∀ xs ys, qs = xs ++ p :: ys →
        ReadyQueue s1 (xs ++ [p]) ∧ ∀ y ∈ ys, ¬ in_ready_queue s1 y) ∧
      (ReadyQueue s1 qs ↔ qs.getLast? = some p) := by
  obtain ⟨s1, h1, hnew, hold⟩ := list_add_result fuel s p qs hq hf
  refine ⟨s1, h1, list_add_well_formed fuel s s1 p ⟨qs, hq, hnd⟩ h1, hnew, ?_, ?_⟩
  · intro xs ys hsplit
    refine ⟨hold xs ys hsplit, ?_⟩
    rintro y hy ⟨l, hl, hm⟩
    have hl0 : l = xs ++ [p] := Linked.unique hl (hold xs ys hsplit)
    rw [hl0] at hm
    have hnd' : (xs ++ p :: ys).Nodup := hsplit ▸ hnd
    rcases List.mem_append.mp hm with hx | hx
    · exact (List.disjoint_of_nodup_append hnd') hx (List.mem_cons_of_mem p hy)
    · have hyp : y = p := by simpa using hx
      have hnd2 : (p :: ys).Nodup := (List.nodup_append.mp hnd').2.1
      exact (List.nodup_cons.mp hnd2).1 (hyp ▸ hy)
  · constructor
    · intro hsame
      by_cases hp : p ∈ qs
      · obtain ⟨xs, ys, hsplit⟩ := List.append_of_mem hp
        have heq : qs = xs ++ [p] := Linked.unique hsame (hold xs ys hsplit)
        rw [heq]; simp
      · have heq : qs = qs ++ [p] := Linked.unique hsame (hnew hp)
        have hlen := congrArg List.length heq
        simp at hlen
    · intro hlast
      obtain ⟨xs, hxs⟩ := List.getLast?_eq_some_iff.mp hlast
      have := hold xs [] hxs
      rw [hxs]; exact this

/-- Witness of C19 on `rr_state`: PCB 2, the head of the queue `[2, 3]`, is added
again. -/
theorem list_add_never_creates_cycle_witness :
    ∃ s1, list_add 2 rr_state 2 = .ok s1 ∧ queue_well_formed s1 ∧
      (2 ∉ [2, 3] → ReadyQueue s1 ([2, 3] ++ [2])) ∧
      (∀ xs ys, [2, 3] = xs ++ 2 :: ys →
        ReadyQueue s1 (xs ++ [2]) ∧ ∀ y ∈ ys, ¬ in_ready_queue s1 y) ∧
      (ReadyQueue s1 [2, 3] ↔ [2, 3].getLast? = some 2) :=
  list_add_never_creates_cycle 2 rr_state 2 [2, 3] (by decide) (by decide) (by decide)

/-! ## Argument parsing -/

/-- Claim C12, the code on `<binary> <#cpus> -l`: whatever the conversions, the binary
name and the CPU argument, `main` leaves the policy at FIFO with quantum -1
(not LRTF), starts the simulator and returns 0. -/
theorem main_dash_l_selects_fifo :
    ∀ (strtoul : String → Nat) (atoi : String → Int) (pol : Policy) (bin cpus : String),
      (main strtoul atoi true pol [bin, cpus, "-l"]).policy =
        { scheduling := sched_kind.SCHED_FIFO, timeslice := -1 } ∧
      (main strtoul atoi true pol [bin, cpus, "-l"]).policy.scheduling ≠
        sched_kind.SCHED_LRTF ∧
      (main strtoul atoi true pol [bin, cpus, "-l"]).events =
        [MainEvent.read_argv 1, MainEvent.read_argv 2,
          MainEvent.malloc_current (strtoul cpus % 2 ^ 32),
          MainEvent.start_simulator (strtoul cpus % 2 ^ 32)] ∧
      (main strtoul atoi true pol [bin, cpus, "-l"]).ret = .ok 0 := by
  intro strtoul atoi pol bin cpus
  have hl : ("-l" : String) ≠ "-r" := by decide
  simp [main, main_start, hl]

/-- Claim C13 as stated fails: `-r 0`, `-r -3` and the unknown flag `-x` are not
rejected; `main` starts the simulator and returns 0, with RR and quantum 0 or
-3, and with FIFO for `-x`. -/
theorem main_accepts_configuration_errors :
    (main strtoul_decimal atoi_decimal true entry_policy ["os-sim", "2", "-r", "0"]).ret
        = .ok 0 ∧
      MainEvent.start_simulator 2 ∈
        (main strtoul_decimal atoi_decimal true entry_policy ["os-sim", "2", "-r", "0"]).events ∧
      (main strtoul_decimal atoi_decimal true entry_policy ["os-sim", "2", "-r", "0"]).policy
        = { scheduling := sched_kind.SCHED_RR, timeslice := 0 } ∧
    (main strtoul_decimal atoi_decimal true entry_policy ["os-sim", "2", "-r", "-3"]).ret
        = .ok 0 ∧
      (main strtoul_decimal atoi_decimal true entry_policy ["os-sim", "2", "-r", "-3"]).policy
        = { scheduling := sched_kind.SCHED_RR, timeslice := -3 } ∧
    (main strtoul_decimal atoi_decimal true entry_policy ["os-sim", "2", "-x"]).ret = .ok 0 ∧
      MainEvent.start_simulator 2 ∈
        (main strtoul_decimal atoi_decimal true entry_policy ["os-sim", "2", "-x"]).events ∧
      (main strtoul_decimal atoi_decimal true entry_policy ["os-sim", "2", "-x"]).policy
        = { scheduling := sched_kind.SCHED_FIFO, timeslice := -1 } := by
  refine ⟨rfl, by decide, by decide, rfl, by decide, rfl, by decide, by decide⟩

/-- Claim C13 amended: `main` has no configuration-error exit behind the argument
count.  When the allocation succeeds, `<#cpus> -r N` selects RR with the
quantum `atoi N` whatever its sign (so quantum N for N > 0), a flag other than
`-l` and `-r` in the flag position, alone or followed by a further argument, is
ignored and leaves FIFO with quantum -1, and `<#cpus>` alone selects FIFO with
quantum -1; in each case the simulator is started and `main` returns 0. -/
theorem main_selects_policy_without_validation (strtoul : String → Nat)
    (atoi : String → Int) (pol : Policy) (bin cpus : String) :
    (∀ n : String,
      (main strtoul atoi true pol [bin, cpus, "-r", n]).policy =
        { scheduling := sched_kind.SCHED_RR, timeslice := atoi n } ∧
      (main strtoul atoi true pol [bin, cpus, "-r", n]).ret = .ok 0 ∧
      MainEvent.start_simulator (strtoul cpus % 2 ^ 32) ∈
        (main strtoul atoi true pol [bin, cpus, "-r", n]).events) ∧
    (∀ n : String, ∀ N : Int, atoi n = N → 0 < N →
      (main strtoul atoi true pol [bin, cpus, "-r", n]).policy =
        { scheduling := sched_kind.SCHED_RR, timeslice := N }) ∧
    (∀ flag : String, flag ≠ "-l" → flag ≠ "-r" →
      (main strtoul atoi true pol [bin, cpus, flag]).policy =
        { scheduling := sched_kind.SCHED_FIFO, timeslice := -1 } ∧
      (main strtoul atoi true pol [bin, cpus, flag]).ret = .ok 0 ∧
      MainEvent.start_simulator (strtoul cpus % 2 ^ 32) ∈
        (main strtoul atoi true pol [bin, cpus, flag]).events) ∧
    (∀ flag further : String, flag ≠ "-l" → flag ≠ "-r" →
      (main strtoul atoi true pol [bin, cpus, flag, further]).policy =
        { scheduling := sched_kind.SCHED_FIFO, timeslice := -1 } ∧
      (main strtoul atoi true pol [bin, cpus, flag, further]).ret = .ok 0 ∧
      MainEvent.start_simulator (strtoul cpus % 2 ^ 32) ∈
        (main strtoul atoi true pol [bin, cpus, flag, further]).events) ∧
    ((main strtoul atoi true pol [bin, cpus]).policy =
        { scheduling := sched_kind.SCHED_FIFO, timeslice := -1 } ∧
      (main strtoul atoi true pol [bin, cpus]).ret = .ok 0 ∧
      MainEvent.start_simulator (strtoul cpus % 2 ^ 32) ∈
        (main strtoul atoi true pol [bin, cpus]).events) := by
  refine ⟨?_, ?_, ?_, ?_, ?_⟩
  · intro n
    simp [main, main_start]
  · intro n N hn _
    simp [main, main_start, hn]
  · intro flag _ hr
    simp [main, main_start, hr]
  · intro flag further _ hr
    simp [main, main_start, hr]
  · simp [main, main_start]

/-- Witness of C13 amended: `-r 5`, the unknown flag `-x`, and `-x` followed by a
further argument, with the decimal conversions. -/
theorem main_selects_policy_without_validation_witness :
    (main strtoul_decimal atoi_decimal true entry_policy ["os-sim", "2", "-r", "5"]).policy =
        { scheduling := sched_kind.SCHED_RR, timeslice := 5 } ∧
    ((main strtoul_decimal atoi_decimal true entry_policy ["os-sim", "2", "-x"]).policy =
        { scheduling := sched_kind.SCHED_FIFO, timeslice := -1 } ∧
      (main strtoul_decimal atoi_decimal true entry_policy ["os-sim", "2", "-x"]).ret = .ok 0 ∧
      MainEvent.start_simulator (strtoul_decimal "2" % 2 ^ 32) ∈
        (main strtoul_decimal atoi_decimal true entry_policy ["os-sim", "2", "-x"]).events) ∧
    ((main strtoul_decimal atoi_decimal true entry_policy ["os-sim", "2", "-x", "7"]).policy =
        { scheduling := sched_kind.SCHED_FIFO, timeslice := -1 } ∧
      (main strtoul_decimal atoi_decimal true entry_policy ["os-sim", "2", "-x", "7"]).ret
        = .ok 0 ∧
      MainEvent.start_simulator (strtoul_decimal "2" % 2 ^ 32) ∈
        (main strtoul_decimal atoi_decimal true entry_policy
          ["os-sim", "2", "-x", "7"]).events) :=
  ⟨(main_selects_policy_without_validation strtoul_decimal atoi_decimal entry_policy
      "os-sim" "2").2.1 "5" 5 (by decide) (by decide),
    (main_selects_policy_without_validation strtoul_decimal atoi_decimal entry_policy
      "os-sim" "2").2.2.1 "-x" (by decide) (by decide),
    (main_selects_policy_without_validation strtoul_decimal atoi_decimal entry_policy
      "os-sim" "2").2.2.2.1 "-x" "7" (by decide) (by decide)⟩

/-- Claim C14 as stated fails: with two arguments, which parse without error, and a
`malloc` that returns the null pointer, `main` fails its assertion; it neither
calls `start_simulator` nor returns 0. -/
theorem main_aborts_when_allocation_fails :
    (["os-sim", "2"] : List String).length = 2 ∧
    (main strtoul_decimal atoi_decimal false entry_policy ["os-sim", "2"]).events =
      [MainEvent.read_argv 1, MainEvent.malloc_current 2] ∧
    MainEvent.start_simulator 2 ∉
      (main strtoul_decimal atoi_decimal false entry_policy ["os-sim", "2"]).events ∧
    (main strtoul_decimal atoi_decimal false entry_policy ["os-sim", "2"]).ret =
      .error Fault.assert_failed ∧
    (main strtoul_decimal atoi_decimal false entry_policy ["os-sim", "2"]).ret ≠ .ok 0 := by
  refine ⟨rfl, by decide, by decide, rfl, ?_⟩
  intro h
  cases h

/-- Claim C14 amended: with an argument count outside [2, 4], `main` returns the
non-zero code -1, leaves the policy statics as they were and does nothing but
print the usage message (no allocation, no `start_simulator`).  With an
argument count inside [2, 4] whose parsing does not fail (the vector is not
`<binary> <#cpus> -r` without a timeslice), `main` allocates `current[]`; when
the allocation succeeds it calls `start_simulator` and returns 0, when it
fails `main` stops in its assertion without calling `start_simulator`. -/
theorem main_argument_count (strtoul : String → Nat) (atoi : String → Int) (pol : Policy)
    (argv : List String) :
    (argv.length < 2 ∨ 4 < argv.length →
      ∀ alloc_ok,
        (main strtoul atoi alloc_ok pol argv).ret = .ok (-1) ∧ (-1 : Int) ≠ 0 ∧
        (main strtoul atoi alloc_ok pol argv).policy = pol ∧
        (main strtoul atoi alloc_ok pol argv).events = [MainEvent.usage]) ∧
    (2 ≤ argv.length → argv.length ≤ 4 →
      ¬ (argv.length = 3 ∧ argv[2]? = some "-r") →
      ∃ cpus pre, argv[1]? = some cpus ∧
        ((main strtoul atoi true pol argv).ret = .ok 0 ∧
          (main strtoul atoi true pol argv).events =
            pre ++ [MainEvent.malloc_current (strtoul cpus % 2 ^ 32),
              MainEvent.start_simulator (strtoul cpus % 2 ^ 32)]) ∧
        ((main strtoul atoi false pol argv).ret = .error Fault.assert_failed ∧
          (main strtoul atoi false pol argv).events =
            pre ++ [MainEvent.malloc_current (strtoul cpus % 2 ^ 32)] ∧
          ∀ n, MainEvent.start_simulator n ∉ pre)) := by
  constructor
  · intro h alloc_ok
    have h' : argv.length < 2 ∨ argv.length > 4 := h
    simp [main, h']
  · intro h2 h4 hparse
    match argv, h2, h4, hparse with
    | [_, a1], _, _, _ =>
      exact ⟨a1, [MainEvent.read_argv 1], rfl, by simp [main, main_start],
        by simp [main, main_start]⟩
    | [_, a1, a2], _, _, hparse =>
      have hr : a2 ≠ "-r" := fun e => hparse ⟨rfl, by simp [e]⟩
      exact ⟨a1, [MainEvent.read_argv 1, MainEvent.read_argv 2], rfl,
        by simp [main, main_start, hr], by simp [main, main_start, hr]⟩
    | [_, a1, a2, a3], _, _, _ =>
      by_cases hr : a2 = "-r"
      · exact ⟨a1, [MainEvent.read_argv 1, MainEvent.read_argv 2, MainEvent.read_argv 3],
          rfl, by simp [main, main_start, hr], by simp [main, main_start, hr]⟩
      · exact ⟨a1, [MainEvent.read_argv 1, MainEvent.read_argv 2], rfl,
          by simp [main, main_start, hr], by simp [main, main_start, hr]⟩

/-- Witness of C14 amended: one argument only, and `<binary> 2 -r 5`. -/
theorem main_argument_count_witness :
    (∀ alloc_ok,
      (main strtoul_decimal atoi_decimal alloc_ok entry_policy ["os-sim"]).ret = .ok (-1) ∧
      (-1 : Int) ≠ 0 ∧
      (main strtoul_decimal atoi_decimal alloc_ok entry_policy ["os-sim"]).policy =
        entry_policy ∧
      (main strtoul_decimal atoi_decimal alloc_ok entry_policy ["os-sim"]).events =
        [MainEvent.usage]) ∧
    (∃ cpus pre, ["os-sim", "2", "-r", "5"][1]? = some cpus ∧
      ((main strtoul_decimal atoi_decimal true entry_policy ["os-sim", "2", "-r", "5"]).ret
          = .ok 0 ∧
        (main strtoul_decimal atoi_decimal true entry_policy
            ["os-sim", "2", "-r", "5"]).events =
          pre ++ [MainEvent.malloc_current (strtoul_decimal cpus % 2 ^ 32),
            MainEvent.start_simulator (strtoul_decimal cpus % 2 ^ 32)]) ∧
      ((main strtoul_decimal atoi_decimal false entry_policy ["os-sim", "2", "-r", "5"]).ret
          = .error Fault.assert_failed ∧
        (main strtoul_decimal atoi_decimal false entry_policy
            ["os-sim", "2", "-r", "5"]).events =
          pre ++ [MainEvent.malloc_current (strtoul_decimal cpus % 2 ^ 32)] ∧
        ∀ n, MainEvent.start_simulator n ∉ pre)) :=
  ⟨(main_argument_count strtoul_decimal atoi_decimal entry_policy ["os-sim"]).1 (by decide),
    (main_argument_count strtoul_decimal atoi_decimal entry_policy
      ["os-sim", "2", "-r", "5"]).2 (by decide) (by decide) (by decide)⟩

/-- Claim C20, the code on `<binary> <#cpus> -r` (three arguments): `main` reads
`argv[3]`, the null pointer behind the arguments, and the timeslice conversion
faults on it; the simulator is not started. -/
theorem main_dash_r_without_timeslice_reads_argv_3 :
    ∀ (strtoul : String → Nat) (atoi : String → Int) (alloc_ok : Bool) (pol : Policy)
      (bin cpus : String),
      [bin, cpus, "-r"].length = 3 ∧
      MainEvent.read_argv 3 ∈ (main strtoul atoi alloc_ok pol [bin, cpus, "-r"]).events ∧
      ¬ 3 < [bin, cpus, "-r"].length ∧
      (main strtoul atoi alloc_ok pol [bin, cpus, "-r"]).ret = .error Fault.null_deref ∧
      (main strtoul atoi alloc_ok pol [bin, cpus, "-r"]).events =
        [MainEvent.read_argv 1, MainEvent.read_argv 2, MainEvent.read_argv 3] := by
  intro strtoul atoi alloc_ok pol bin cpus
  simp [main]

/-! ## Lock discipline -/

/-- Waiting on the condition variable in a loop adds no violation when a single
wait is none and leaves the held mutexes as they are. -/
theorem never_replicate_cond_wait (bad : Held → SyncOp → Bool)
    (hbad : ∀ h, bad h SyncOp.cond_wait = false) (h : Held) (ops : List SyncOp) :
    ∀ n, never bad h (List.replicate n SyncOp.cond_wait ++ ops) = never bad h ops
  | 0 => rfl
  | n + 1 => by
    rw [List.replicate_succ, List.cons_append, never, hbad h]
    exact never_replicate_cond_wait bad hbad h ops n

/-- The operations of `idle`, with the waits in front of the rest. -/
theorem idle_sync_cons (waits : Nat) (b : Bool) :
    idle_sync waits b = SyncOp.lock Mutex.list_mutex ::
      (List.replicate waits SyncOp.cond_wait ++
        (SyncOp.unlock Mutex.list_mutex :: schedule_sync b)) := by
  simp [idle_sync]

/-- Claim C18 as stated fails: on the path of `schedule` where `head` is non-null,
`list_pop` acquires `list_mutex` while `current_mutex` is held; the same happens
in `idle`, `preempt`, `yield` and `terminate` through their call of
`schedule`. -/
theorem schedule_takes_list_mutex_under_current_mutex :
    schedule_sync true =
      [SyncOp.lock Mutex.current_mutex, SyncOp.lock Mutex.list_mutex,
        SyncOp.unlock Mutex.list_mutex, SyncOp.call_context_switch,
        SyncOp.unlock Mutex.current_mutex] ∧
    never takes_list_under_current no_lock (schedule_sync true) = false ∧
    never takes_list_under_current no_lock (handler_sync 0 true (Call.idle 0)) = false ∧
    never takes_list_under_current no_lock (handler_sync 0 true (Call.preempt 0)) = false ∧
    never takes_list_under_current no_lock (handler_sync 0 true (Call.yield 0)) = false ∧
    never takes_list_under_current no_lock (handler_sync 0 true (Call.terminate 0)) = false := by
  refine ⟨rfl, ?_, ?_, ?_, ?_, ?_⟩ <;> decide

/-- Claim C18 amended: in `schedule` and in every handler, whatever the number of
waits in `idle` and the outcome of the test `head != NULL`, `list_mutex` is
never held at a call to `context_switch` or `force_preempt` and `current_mutex`
is never acquired while `list_mutex` is held.  `list_mutex` is acquired while
`current_mutex` is held exactly on the path of `schedule` where `head` is
non-null (the call of `list_pop`): never in `wake_up`, and in no handler when
`schedule` finds the queue empty. -/
theorem lock_discipline_of_the_code (waits : Nat) (head_non_null : Bool) (c : Call) :
    never calls_harness_under_list no_lock (handler_sync waits head_non_null c) = true ∧
    never takes_current_under_list no_lock (handler_sync waits head_non_null c) = true ∧
    never calls_harness_under_list no_lock (schedule_sync head_non_null) = true ∧
    never takes_current_under_list no_lock (schedule_sync head_non_null) = true ∧
    (never takes_list_under_current no_lock (schedule_sync head_non_null) = true ↔
      head_non_null = false) ∧
    never takes_list_under_current no_lock wake_up_sync = true ∧
    never takes_list_under_current no_lock (handler_sync waits false c) = true := by
  have hidle : ∀ (bad : Held → SyncOp → Bool) (b : Bool),
      (∀ h, bad h SyncOp.cond_wait = false) →
      never bad no_lock (idle_sync waits b) = never bad no_lock (idle_sync 0 b) := by
    intro bad b hbad
    rw [idle_sync_cons, idle_sync_cons, never, never,
      never_replicate_cond_wait bad hbad, never_replicate_cond_wait bad hbad]
  have h1 : ∀ h, calls_harness_under_list h SyncOp.cond_wait = false := fun _ => rfl
  have h2 : ∀ h, takes_current_under_list h SyncOp.cond_wait = false := fun _ => rfl
  have h3 : ∀ h, takes_list_under_current h SyncOp.cond_wait = false := fun _ => rfl
  cases c with
  | idle cpu =>
    simp only [handler_sync]
    rw [hidle _ head_non_null h1, hidle _ head_non_null h2, hidle _ false h3]
    cases head_non_null <;> decide
  | preempt cpu => simp only [handler_sync]; cases head_non_null <;> decide
  | yield cpu => simp only [handler_sync]; cases head_non_null <;> decide
  | terminate cpu => simp only [handler_sync]; cases head_non_null <;> decide
  | wake_up p => simp only [handler_sync]; cases head_non_null <;> decide

/-! ## The quantum on the policies that `main` selects -/

end OSSim
